import Mathlib

/-! The `errors` package of go-errors (errors/error.go).

A shallow embedding of the package and the properties of its behaviour. The parts of the
standard library that the package relies on (unicode/utf8, encoding/json, net/http,
net/http/httptest) are modelled after their sources as of Go 1.22: the encoder writes
the short escapes for backspace and form feed, and `WriteHeader` panics on a code that
has not three digits.

Modelling conventions.

* A Go `string` is a `GoString`, a sequence of bytes, which need not be valid UTF-8; a
  string constant of the source is the UTF-8 encoding of its characters. The text that
  the JSON encoder produces is valid UTF-8 whatever it is given, and it is held as a Lean
  `String`, the sequence of its characters, and so is what a JSON reader returns.
* A Go `int` is an `Int`; the package does no arithmetic on it.
* A `*string` is an `Option GoString`, `none` being the nil pointer.
* `*Error` methods mutate their receiver and return it; a method on a non-nil receiver is
  a function from the receiver's state before the call to its state after the call, which
  is also the value the returned pointer refers to.
* A run-time panic is the `error` branch of `Except Panic`.
* A value of an interface type is given by its dynamic type and value; a response target
  is a record of the methods of `http.ResponseWriter` over the type of its state.
-/

set_option linter.dupNamespace false

namespace GoErrors

/-! ## Constants of net/http -/

/-- The constant `http.StatusBadRequest`. -/
def StatusBadRequest : Int := 400

/-- The constant `http.StatusInternalServerError`. -/
def StatusInternalServerError : Int := 500

/-! ## Go strings and unicode/utf8 -/

/-- A byte. -/
abbrev Byte := Fin 256

/-- A Go `string`: a sequence of bytes. -/
abbrev GoString := List Byte

/-- The UTF-8 encoding of a character (`utf8.AppendRune`): one to four bytes. -/
def encodeRune (c : Char) : List Byte :=
  if c.toNat < 0x80 then [Fin.ofNat c.toNat]
  else if c.toNat < 0x800 then
    [Fin.ofNat (0xC0 + c.toNat / 64), Fin.ofNat (0x80 + c.toNat % 64)]
  else if c.toNat < 0x10000 then
    [Fin.ofNat (0xE0 + c.toNat / 4096), Fin.ofNat (0x80 + c.toNat / 64 % 64),
      Fin.ofNat (0x80 + c.toNat % 64)]
  else
    [Fin.ofNat (0xF0 + c.toNat / 262144), Fin.ofNat (0x80 + c.toNat / 4096 % 64),
      Fin.ofNat (0x80 + c.toNat / 64 % 64), Fin.ofNat (0x80 + c.toNat % 64)]

/-- The Go string that holds a sequence of characters: its UTF-8 encoding. The valid
UTF-8 strings are the strings of this form, and so is every string constant of the
source. -/
def utf8 (s : String) : GoString := s.data.flatMap encodeRune

/-- The constant `utf8.RuneError`, U+FFFD. -/
def RuneError : Nat := 0xFFFD

/-- The tables `first` and `acceptRanges` of unicode/utf8: for the first byte of an
encoding of more than one byte, the size of the encoding and the range in which the
second byte must lie; `none` for an ASCII byte and for a byte that begins no encoding. -/
def first (s0 : Nat) : Option (Nat × Nat × Nat) :=
  if 0xC2 ≤ s0 ∧ s0 ≤ 0xDF then some (2, 0x80, 0xBF)
  else if s0 = 0xE0 then some (3, 0xA0, 0xBF)
  else if 0xE1 ≤ s0 ∧ s0 ≤ 0xEC then some (3, 0x80, 0xBF)
  else if s0 = 0xED then some (3, 0x80, 0x9F)
  else if 0xEE ≤ s0 ∧ s0 ≤ 0xEF then some (3, 0x80, 0xBF)
  else if s0 = 0xF0 then some (4, 0x90, 0xBF)
  else if 0xF1 ≤ s0 ∧ s0 ≤ 0xF3 then some (4, 0x80, 0xBF)
  else if s0 = 0xF4 then some (4, 0x80, 0x8F)
  else none

/-- The function `utf8.DecodeRuneInString`: the first character of s and the number of
bytes of its encoding, or `RuneError` and 1 when s begins with no valid encoding (and
`RuneError` and 0 when s is empty). The masks and shifts of the source are written as
remainders and products. -/
def DecodeRuneInString (s : List Byte) : Nat × Nat :=
  match s with
  | [] => (RuneError, 0)
  | s0 :: rest =>
    if s0.val < 0x80 then (s0.val, 1)
    else
      match first s0.val, rest with
      | none, _ => (RuneError, 1)
      | some _, [] => (RuneError, 1)
      | some (sz, lo, hi), s1 :: rest1 =>
        if s1.val < lo ∨ hi < s1.val then (RuneError, 1)
        else if sz ≤ 2 then (s0.val % 32 * 64 + s1.val % 64, 2)
        else
          match rest1 with
          | [] => (RuneError, 1)
          | s2 :: rest2 =>
            if s2.val < 0x80 ∨ 0xBF < s2.val then (RuneError, 1)
            else if sz ≤ 3 then (s0.val % 16 * 4096 + s1.val % 64 * 64 + s2.val % 64, 3)
            else
              match rest2 with
              | [] => (RuneError, 1)
              | s3 :: _ =>
                if s3.val < 0x80 ∨ 0xBF < s3.val then (RuneError, 1)
                else (s0.val % 8 * 262144 + s1.val % 64 * 4096 + s2.val % 64 * 64 +
                  s3.val % 64, 4)

/-- A string as a loop with `DecodeRuneInString` walks it, as the loop of `appendString`
does: at each position the character decoded there, or `none` for a byte that begins no
valid encoding (`RuneError` with size 1), after which the loop goes on with the next
byte. The first argument counts the bytes still to skip, those of the encoding just
decoded. -/
def runesFrom : Nat → List Byte → List (Option Char)
  | _, [] => []
  | skip + 1, _ :: bs => runesFrom skip bs
  | 0, b :: bs =>
    (if (DecodeRuneInString (b :: bs)).1 = RuneError ∧ (DecodeRuneInString (b :: bs)).2 = 1
      then none else some (Char.ofNat (DecodeRuneInString (b :: bs)).1)) ::
      runesFrom ((DecodeRuneInString (b :: bs)).2 - 1) bs

/-- The characters and the invalid bytes of a string, in order. -/
def GoString.runes (s : GoString) : List (Option Char) := runesFrom 0 s

/-- The string with U+FFFD in the place of every byte that is part of no valid encoding:
what encoding/json calls the string coerced to valid UTF-8. It is valid UTF-8 and given
by its characters. -/
def GoString.coerced (s : GoString) : String :=
  ⟨s.runes.map (fun r => r.getD (Char.ofNat RuneError))⟩

/-! ## The Error type, its constructors, setters and accessors -/

/-- The struct `Error` of error.go. -/
structure Error where
  err : GoString
  typ : GoString
  status : Int
  paramName : Option GoString
  deriving DecidableEq, Repr

/-- The run-time panics that the modelled code can raise. -/
inductive Panic where
  /-- A nil pointer was dereferenced, or a method was called on a nil interface value. -/
  | nilDereference
  /-- The panic of net/http `checkWriteHeaderCode`: "invalid WriteHeader code". -/
  | invalidWriteHeaderCode (code : Int)
  deriving DecidableEq, Repr

instance {ε α : Type} [DecidableEq ε] [DecidableEq α] : DecidableEq (Except ε α)
  | .ok a, .ok b => if h : a = b then isTrue (by rw [h]) else isFalse (by simp [h])
  | .error a, .error b => if h : a = b then isTrue (by rw [h]) else isFalse (by simp [h])
  | .ok _, .error _ => isFalse (by simp)
  | .error _, .ok _ => isFalse (by simp)

/-- A value of the Go interface type `error`, by dynamic type. -/
inductive GoError where
  /-- The nil interface value (no error). -/
  | nil
  /-- A value of dynamic type `*Error`; `none` is the nil `*Error` pointer. -/
  | errorPtr (p : Option Error)
  /-- A value of any other dynamic type, whose `Error()` method returns `msg`. -/
  | other (msg : GoString)
  deriving DecidableEq, Repr

/-- The function `New` of error.go; `paramName` is left at its zero value, nil. -/
def New (err : GoString) : Error :=
  { err := err
    typ := utf8 "InternalServerError"
    status := StatusInternalServerError
    paramName := none }

/-- The method `SetType`: `err.typ = typ; return err`. -/
def Error.SetType (err : Error) (typ : GoString) : Error :=
  { err with typ := typ }

/-- The method `SetStatus`: `err.status = statusCode; return err`. -/
def Error.SetStatus (err : Error) (statusCode : Int) : Error :=
  { err with status := statusCode }

/-- The method `SetParamName`: `err.paramName = &name; return err`. -/
def Error.SetParamName (err : Error) (name : GoString) : Error :=
  { err with paramName := some name }

/-- The function `NewValidation` of error.go. -/
def NewValidation (err : GoString) : Error :=
  ((New err).SetType (utf8 "Validation")).SetStatus StatusBadRequest

/-- The method `Error`: the error message. -/
def Error.Error (err : Error) : GoString := err.err

/-- The method `Status`: the status code. -/
def Error.Status (err : GoErrors.Error) : Int := err.status

/-- The method `ParamName`: the paramName pointer. -/
def Error.ParamName (err : GoErrors.Error) : Option GoString := err.paramName

/-- The type assertion `e, ok := err.(*Error)`: it succeeds exactly for the dynamic type
`*Error`, also when the pointer is nil; otherwise e is the zero value, nil. -/
def assertError (err : GoError) : Option Error × Bool :=
  match err with
  | .errorPtr p => (p, true)
  | _ => (none, false)

/-- The function `IsValidation`: `ok && (e.status == 400 || e.typ == "Validation")`. The
operator `&&` evaluates its right operand only when ok holds; reading `e.status` through
a nil pointer panics. -/
def IsValidation (err : GoError) : Except Panic Bool :=
  let (e, ok) := assertError err
  if ok then
    match e with
    | some e => .ok (e.status == StatusBadRequest || e.typ == utf8 "Validation")
    | none => .error .nilDereference
  else .ok false

/-! ## encoding/json: the encoder, as far as `MarshalJSON` uses it -/

/-- The table `hex` of encoding/json, the digits "0123456789abcdef". -/
def hex (i : Nat) : Char := "0123456789abcdef".data.getD i '0'

/-- The table `htmlSafeSet` of encoding/json: the ASCII characters that are written to a
JSON string as they are, namely those from the space on, except the double quote, the
backslash and the three HTML characters. -/
def htmlSafeSet (c : Char) : Bool :=
  decide (0x20 ≤ c.toNat) && decide (c.toNat < 0x80) &&
    c != '"' && c != '&' && c != '<' && c != '>' && c != '\\'

/-- One iteration of the loop of `appendString` (with escapeHTML set, as `Marshal` and a
new `Encoder` have it) at a validly encoded character c: what is appended for it. -/
def appendRune (c : Char) : List Char :=
  if c.toNat < 0x80 then
    if htmlSafeSet c then [c]
    else if c = '\\' ∨ c = '"' then ['\\', c]
    else if c = '\x08' then ['\\', 'b']
    else if c = '\x0c' then ['\\', 'f']
    else if c = '\n' then ['\\', 'n']
    else if c = '\r' then ['\\', 'r']
    else if c = '\t' then ['\\', 't']
    else ['\\', 'u', '0', '0', hex (c.toNat / 16), hex (c.toNat % 16)]
  else if c = '\u2028' ∨ c = '\u2029' then ['\\', 'u', '2', '0', '2', hex (c.toNat % 16)]
  else [c]

/-- One iteration of the loop of `appendString`, at a character or at a byte that begins
no valid encoding: for such a byte the escape of U+FFFD is appended. -/
def appendStep : Option Char → List Char
  | some c => appendRune c
  | none => ['\\', 'u', 'f', 'f', 'f', 'd']

/-- The characters that `appendString` puts between the two quotes. -/
def appendRunes (src : List (Option Char)) : List Char :=
  src.flatMap appendStep

/-- The function `appendString` of encoding/json: src as a JSON string literal. -/
def appendString (src : GoString) : String :=
  ⟨'"' :: (appendRunes src.runes ++ ['"'])⟩

/-- The values that `MarshalJSON` stores in its `map[string]interface{}`. -/
inductive Value where
  /-- A Go `string`. -/
  | str (s : GoString)
  /-- A Go `*string`; `none` is the nil pointer. -/
  | strPtr (p : Option GoString)
  deriving DecidableEq, Repr

/-- A Go `map[string]interface{}`: its entries, one for each key. -/
abbrev Map := List (GoString × Value)

/-- The assignment `m[k] = v`. -/
def Map.set (m : Map) (k : GoString) (v : Value) : Map :=
  if m.any (fun kv => kv.1 == k) then m.map (fun kv => if kv.1 == k then (k, v) else kv)
  else m ++ [(k, v)]

/-- The order in which encoding/json sorts the keys of a map: `strings.Compare`, the
lexicographic order of the bytes. -/
def keyLE (a b : GoString) : Bool := !decide (b < a)

/-- Insertion of an entry into a list of entries sorted by key. -/
def sortedInsert (kv : GoString × Value) : Map → Map
  | [] => [kv]
  | x :: xs => if keyLE kv.1 x.1 then kv :: x :: xs else x :: sortedInsert kv xs

/-- The entries of a map in the order of their keys, as the map encoder writes them. -/
def sortByKey : Map → Map
  | [] => []
  | kv :: m => sortedInsert kv (sortByKey m)

/-- The JSON text of a value: a string literal; a pointer is followed, and a nil pointer
is `null`. -/
def encodeValue : Value → String
  | .str s => appendString s
  | .strPtr (some s) => appendString s
  | .strPtr none => "null"

/-- An error returned by encoding/json. -/
inductive JSONError where
  /-- The value has a type that JSON cannot represent. -/
  | unsupportedType
  /-- A `MarshalJSON` method returned an error. -/
  | marshalerError
  deriving DecidableEq, Repr

/-- One member of a JSON object: the key, a colon, the value. -/
def encodeMember (kv : GoString × Value) : String :=
  appendString kv.1 ++ ":" ++ encodeValue kv.2

/-- The function `json.Marshal` on a `map[string]interface{}` of strings and string
pointers: the members in the order of their keys, comma-separated, in braces. It does not
fail on such a map. -/
def Marshal (m : Map) : Except JSONError String :=
  .ok ("\x7b" ++ ",".intercalate ((sortByKey m).map encodeMember) ++ "\x7d")

/-- The method `MarshalJSON` of error.go. -/
def Error.MarshalJSON (err : GoErrors.Error) : Except JSONError String :=
  let data : Map := [(utf8 "error", .str err.typ), (utf8 "message", .str err.err)]
  let data :=
    if err.paramName != none then data.set (utf8 "paramName") (.strPtr err.paramName) else data
  Marshal data

/-- The loop body of `appendCompact` of encoding/json (with escape set), by which an
`Encoder` copies the text that a `MarshalJSON` method returned: the scanner state, as far
as it decides which characters are insignificant white space. The syntax check that the
scanner performs along the way is not part of this model. -/
inductive ScanState where
  /-- Outside of any string literal. -/
  | outside
  /-- Inside a string literal. -/
  | inString
  /-- Inside a string literal, right after a backslash. -/
  | inStringEsc
  deriving DecidableEq, Repr

/-- One step of the scanner: the next state, and whether the character is white space
between tokens (`scanSkipSpace`). -/
def scanStep : ScanState → Char → ScanState × Bool
  | .outside, c =>
    if c = ' ' ∨ c = '\t' ∨ c = '\r' ∨ c = '\n' then (.outside, true)
    else if c = '"' then (.inString, false)
    else (.outside, false)
  | .inString, c =>
    if c = '"' then (.outside, false)
    else if c = '\\' then (.inStringEsc, false)
    else (.inString, false)
  | .inStringEsc, _ => (.inString, false)

/-- The loop of `appendCompact`: the HTML characters and the two line separators are
replaced by their escapes wherever they stand, white space between tokens is dropped, and
everything else is copied. -/
def compactFrom : ScanState → List Char → List Char
  | _, [] => []
  | st, c :: cs =>
    let out :=
      if c = '<' ∨ c = '>' ∨ c = '&' then
        ['\\', 'u', '0', '0', hex (c.toNat / 16), hex (c.toNat % 16)]
      else if c = '\u2028' ∨ c = '\u2029' then ['\\', 'u', '2', '0', '2', hex (c.toNat % 16)]
      else if (scanStep st c).2 then []
      else [c]
    out ++ compactFrom (scanStep st c).1 cs

/-- The function `appendCompact` on a whole JSON text. -/
def compact (src : String) : String := ⟨compactFrom .outside src.data⟩

/-! ## net/http: headers and the ResponseWriter interface -/

/-- The type `http.Header`, a `map[string][]string`. -/
abbrev Header := List (String × List String)

/-- The method `Header.Set`: the key gets the single value given. Keys are taken as they
are written; "Content-Type", the only key that error.go sets, is in canonical form. -/
def Header.Set (h : Header) (key value : String) : Header :=
  (key, [value]) :: h.filter (fun kv => kv.1 != key)

/-- The method `Header.Get`: the first value of the key, or the empty string. -/
def Header.Get (h : Header) (key : String) : String :=
  match h.lookup key with
  | some (v :: _) => v
  | _ => ""

/-- The interface `http.ResponseWriter`, for a response target whose state has type σ.
`Header` is the header map that the method `Header()` returns and `setHeader` the state
of the target once that map has been changed through the reference returned.
`WriteHeader` and `Write` give the state after the call, or panic; what `Write` returns
to its caller is not recorded, as error.go never looks at it. -/
structure ResponseWriter (σ : Type) where
  Header : σ → GoErrors.Header
  setHeader : σ → GoErrors.Header → σ
  WriteHeader : σ → Int → Except Panic σ
  Write : σ → String → Except Panic σ

/-- The call `json.NewEncoder(w).Encode(e)` for a non-nil `*Error` e. The encoder calls
`e.MarshalJSON()`; on an error nothing is written; otherwise the text is compacted, a
newline is appended and all of it goes to `w.Write` in one call. The error that `Encode`
returns is dropped by its only caller. -/
def Encode {σ : Type} (W : ResponseWriter σ) (w : σ) (e : Error) : Except Panic σ :=
  match e.MarshalJSON with
  | .error _ => .ok w
  | .ok b => W.Write w (compact b ++ "\n")

/-- The function `WriteResponse` of error.go. The type switch takes a nil interface
value to the default case, where the call `err.Error()` panics; a nil `*Error` pointer
takes the first case and makes `e.Status()` panic. -/
def WriteResponse {σ : Type} (W : ResponseWriter σ) (w : σ) (err : GoError) :
    Except Panic σ := do
  let e : Option Error ←
    match err with
    | .errorPtr t => pure t
    | .other msg => pure (some (New msg))
    | .nil => throw Panic.nilDereference
  let w := W.setHeader w ((W.Header w).Set "Content-Type" "application/json")
  match e with
  | none => throw Panic.nilDereference
  | some e => do
    let w ← W.WriteHeader w e.Status
    Encode W w e

/-! ## net/http/httptest: the ResponseRecorder -/

/-- The struct `httptest.ResponseRecorder`. `Body` is `none` when the buffer pointer is
nil, and `snapHeader` is `none` until the headers have been written. -/
structure ResponseRecorder where
  Code : Int
  HeaderMap : Header
  Body : Option String
  wroteHeader : Bool
  snapHeader : Option Header
  deriving DecidableEq, Repr

/-- The function `httptest.NewRecorder`. -/
def NewRecorder : ResponseRecorder :=
  { Code := 200, HeaderMap := [], Body := some "", wroteHeader := false, snapHeader := none }

/-- The method `ResponseRecorder.WriteHeader`: nothing once the header is written;
otherwise `checkWriteHeaderCode` panics unless the code has three digits, and the code
and a snapshot of the headers are recorded. -/
def ResponseRecorder.WriteHeader (rw : ResponseRecorder) (code : Int) :
    Except Panic ResponseRecorder :=
  if rw.wroteHeader then .ok rw
  else if code < 100 ∨ code > 999 then .error (.invalidWriteHeaderCode code)
  else .ok { rw with Code := code, wroteHeader := true, snapHeader := some rw.HeaderMap }

/-- The method `ResponseRecorder.Write`. When the header has not been written yet it is
written with code 200, after a Content-Type has been chosen by `http.DetectContentType`
(the parameter detect) if there is neither a Content-Type nor a Transfer-Encoding. Then
the bytes are appended to the body, if there is a buffer. -/
def ResponseRecorder.Write (detect : String → String) (rw : ResponseRecorder)
    (buf : String) : Except Panic ResponseRecorder := do
  let rw ←
    if rw.wroteHeader then pure rw
    else
      let m := rw.HeaderMap
      let m :=
        if !(m.any (fun kv => kv.1 == "Content-Type")) && m.Get "Transfer-Encoding" == ""
        then m.Set "Content-Type" (detect buf) else m
      ResponseRecorder.WriteHeader { rw with HeaderMap := m } 200
  pure { rw with Body := rw.Body.map (fun b => b ++ buf) }

/-- A `*httptest.ResponseRecorder` as an `http.ResponseWriter`. -/
def recorder (detect : String → String) : ResponseWriter ResponseRecorder :=
  { Header := fun rw => rw.HeaderMap
    setHeader := fun rw m => { rw with HeaderMap := m }
    WriteHeader := ResponseRecorder.WriteHeader
    Write := ResponseRecorder.Write detect }

/-- The part of `http.Response` that a test reads. -/
structure Response where
  StatusCode : Int
  Header : Header
  Body : String
  deriving DecidableEq, Repr

/-- The method `ResponseRecorder.Result`: the recorded code (200 if it is 0), the headers
as they were when the header was written, and the body. -/
def ResponseRecorder.Result (rw : ResponseRecorder) : Response :=
  { StatusCode := if rw.Code = 0 then 200 else rw.Code
    Header := rw.snapHeader.getD rw.HeaderMap
    Body := rw.Body.getD "" }

/-! ## Reading a response body back

What a client sees when it parses a body, as the package's test does with
`json.Unmarshal` into a `map[string]*string`: a reader for JSON texts that consist of one
object whose member values are strings or null. -/

/-- The value of a hexadecimal digit. -/
def hexVal (c : Char) : Option Nat :=
  if '0' ≤ c ∧ c ≤ '9' then some (c.toNat - 48)
  else if 'a' ≤ c ∧ c ≤ 'f' then some (c.toNat - 87)
  else if 'A' ≤ c ∧ c ≤ 'F' then some (c.toNat - 55)
  else none

/-- Where the reader stands in the text. -/
inductive ReadMode where
  /-- Before the opening brace. -/
  | start
  /-- After the opening brace: a key or the closing brace. -/
  | firstKey
  /-- After a comma: a key. -/
  | nextKey
  /-- After a key: the colon. -/
  | colon
  /-- After the colon: a value. -/
  | value
  /-- After a value: a comma or the closing brace. -/
  | afterValue
  /-- After the closing brace. -/
  | finished
  /-- Inside a string literal, a key or a value. -/
  | inString (isKey : Bool)
  /-- Inside a string literal, right after a backslash. -/
  | inEscape (isKey : Bool)
  /-- Inside a four-digit escape, with n digits read, of value acc. -/
  | inHex (isKey : Bool) (n : Nat) (acc : Nat)
  /-- Inside the literal null, with n characters read. -/
  | inNull (n : Nat)
  deriving DecidableEq, Repr

/-- The state of the reader: the members read so far, the key of the member being read
and the characters of the string literal being read. -/
structure Reader where
  mode : ReadMode
  members : List (String × Option String)
  key : String
  buf : List Char
  deriving DecidableEq, Repr

/-- White space between the tokens of a JSON text. -/
def isSpace (c : Char) : Bool := c == ' ' || c == '\t' || c == '\r' || c == '\n'

/-- The reader at the closing quote of a string literal: a key waits for its colon, a
value completes a member. -/
def Reader.endString (r : Reader) (isKey : Bool) : Reader :=
  if isKey then { r with mode := .colon, key := ⟨r.buf⟩, buf := [] }
  else { r with mode := .afterValue, members := r.members ++ [(r.key, some ⟨r.buf⟩)], buf := [] }

/-- The reader after one more character of the string literal has been decoded. -/
def Reader.push (r : Reader) (isKey : Bool) (c : Char) : Reader :=
  { r with mode := .inString isKey, buf := r.buf ++ [c] }

/-- One character of input; `none` when the text is not of the expected form. An escape
that denotes a surrogate code unit is not accepted. -/
def Reader.step (r : Reader) (c : Char) : Option Reader :=
  match r.mode with
  | .start =>
    if isSpace c then some r
    else if c = '\x7b' then some { r with mode := .firstKey } else none
  | .firstKey =>
    if isSpace c then some r
    else if c = '"' then some { r with mode := .inString true, buf := [] }
    else if c = '\x7d' then some { r with mode := .finished } else none
  | .nextKey =>
    if isSpace c then some r
    else if c = '"' then some { r with mode := .inString true, buf := [] } else none
  | .colon =>
    if isSpace c then some r
    else if c = ':' then some { r with mode := .value } else none
  | .value =>
    if isSpace c then some r
    else if c = '"' then some { r with mode := .inString false, buf := [] }
    else if c = 'n' then some { r with mode := .inNull 1 } else none
  | .afterValue =>
    if isSpace c then some r
    else if c = ',' then some { r with mode := .nextKey }
    else if c = '\x7d' then some { r with mode := .finished } else none
  | .finished => if isSpace c then some r else none
  | .inString k =>
    if c = '"' then some (r.endString k)
    else if c = '\\' then some { r with mode := .inEscape k }
    else if c.toNat < 0x20 then none
    else some (r.push k c)
  | .inEscape k =>
    if c = '"' ∨ c = '\\' ∨ c = '/' then some (r.push k c)
    else if c = 'b' then some (r.push k '\x08')
    else if c = 'f' then some (r.push k '\x0c')
    else if c = 'n' then some (r.push k '\n')
    else if c = 'r' then some (r.push k '\r')
    else if c = 't' then some (r.push k '\t')
    else if c = 'u' then some { r with mode := .inHex k 0 0 }
    else none
  | .inHex k n acc =>
    match hexVal c with
    | none => none
    | some d =>
      if n < 3 then some { r with mode := .inHex k (n + 1) (acc * 16 + d) }
      else if (acc * 16 + d).isValidChar then some (r.push k (Char.ofNat (acc * 16 + d)))
      else none
  | .inNull n =>
    if n = 1 ∧ c = 'u' then some { r with mode := .inNull 2 }
    else if n = 2 ∧ c = 'l' then some { r with mode := .inNull 3 }
    else if n = 3 ∧ c = 'l' then
      some { r with mode := .afterValue, members := r.members ++ [(r.key, none)] }
    else none

/-- The reader run over a sequence of characters. -/
def Reader.run (r : Reader) : List Char → Option Reader
  | [] => some r
  | c :: cs =>
    match r.step c with
    | some r' => r'.run cs
    | none => none

/-- The members of the JSON object that a text consists of, in the order in which they
stand, with `none` for a null value; `none` when the text is not a single object with
string or null values. -/
def parseObject (text : String) : Option (List (String × Option String)) :=
  match Reader.run { mode := .start, members := [], key := "", buf := [] } text.data with
  | some r => if r.mode = .finished then some r.members else none
  | none => none

/-- The value that a parsed object has under a key: `none` when the key is absent,
`some none` when it is null. -/
def member (obj : List (String × Option String)) (key : String) : Option (Option String) :=
  obj.lookup key

/-- A stand-in for `http.DetectContentType` where a concrete recorder is needed: every
content is taken for plain text. -/
def detectPlain (_ : String) : String := "text/plain; charset=utf-8"

/-! ## Strings that are written as they are -/

/-- A character that encoding/json writes into a string literal as it is: an ASCII
character of `htmlSafeSet`, or a character beyond ASCII other than the line separator
U+2028 and the paragraph separator U+2029. -/
def isPlain (c : Char) : Bool :=
  if c.toNat < 0x80 then htmlSafeSet c else c != '\u2028' && c != '\u2029'

/-- A string that encoding/json writes between the quotes as it is. -/
def NoEscape (s : String) : Bool := s.data.all isPlain

/-- A character that the JSON grammar (RFC 8259) allows in a string literal as it is:
anything but a control character, the double quote and the backslash. -/
def unescapedJSON (c : Char) : Bool :=
  decide (0x20 ≤ c.toNat) && c != '"' && c != '\\'

/-! ## The public operations on an Error, as a state machine -/

/-- A call of one of the public operations of the package on a `*Error` value. -/
inductive Op where
  /-- The call `e.SetType(typ)`. -/
  | SetType (typ : GoString)
  /-- The call `e.SetStatus(statusCode)`. -/
  | SetStatus (statusCode : Int)
  /-- The call `e.SetParamName(name)`. -/
  | SetParamName (name : GoString)
  /-- The call `e.Error()`. -/
  | Error
  /-- The call `e.Status()`. -/
  | Status
  /-- The call `e.ParamName()`. -/
  | ParamName
  /-- The call `e.MarshalJSON()`. -/
  | MarshalJSON
  /-- The call `IsValidation(e)`. -/
  | IsValidation
  /-- The call `WriteResponse(w, e)`, on any response target. -/
  | WriteResponse
  deriving DecidableEq, Repr

/-- The state of the receiver after a call. The setters assign one field; the accessors,
`MarshalJSON`, `IsValidation` and `WriteResponse` hold no assignment to a field of the
value and hand it to nothing but each other and the JSON encoder, which reads it. -/
def Op.apply (op : Op) (e : GoErrors.Error) : GoErrors.Error :=
  match op with
  | .SetType typ => e.SetType typ
  | .SetStatus statusCode => e.SetStatus statusCode
  | .SetParamName name => e.SetParamName name
  | .Error => e
  | .Status => e
  | .ParamName => e
  | .MarshalJSON => e
  | .IsValidation => e
  | .WriteResponse => e

/-- The state of a value after a sequence of calls, the first call first. -/
def applyAll (ops : List Op) (e : Error) : Error :=
  ops.foldl (fun e op => op.apply e) e

/-! ## A response target that records the calls made on it -/

/-- An effect on a response target. -/
inductive Event where
  /-- The header map was changed to m, through the reference that `Header()` returned. -/
  | header (m : Header)
  /-- The call `WriteHeader(code)`. -/
  | writeHeader (code : Int)
  /-- The call `Write(buf)`. -/
  | write (buf : String)
  deriving DecidableEq, Repr

/-- The state of the recording target: its header map and the effects so far, the first
effect first. -/
structure Trace where
  header : Header
  events : List Event
  deriving DecidableEq, Repr

/-- A response target that accepts every call and records it. -/
def tracer : ResponseWriter Trace :=
  { Header := fun tr => tr.header
    setHeader := fun tr m => { header := m, events := tr.events ++ [.header m] }
    WriteHeader := fun tr code => .ok { tr with events := tr.events ++ [.writeHeader code] }
    Write := fun tr buf => .ok { tr with events := tr.events ++ [.write buf] } }

/-- The bytes that have been written to the body of the recording target, one entry for
each call of `Write`. -/
def Trace.written (tr : Trace) : List String :=
  tr.events.filterMap (fun ev => match ev with
    | .write buf => some buf
    | _ => none)

/-! ## Classification -/

/-- C1: `IsValidation` returns true exactly when its argument is a (non-nil) `*Error`
whose status is 400 or whose type is "Validation". It is true for status 400 with any
type and for type "Validation" with any status, false for every `*Error` value with
another status and another type, and false for the nil error and for every error of
another dynamic type. -/
theorem isValidation_true_iff :
    (∀ err : GoError, IsValidation err = .ok true ↔
      ∃ e : Error, err = .errorPtr (some e) ∧
        (e.Status = 400 ∨ e.typ = utf8 "Validation")) ∧
    (∀ e : Error, e.Status = 400 → IsValidation (.errorPtr (some e)) = .ok true) ∧
    (∀ e : Error, e.typ = utf8 "Validation" →
      IsValidation (.errorPtr (some e)) = .ok true) ∧
    (∀ e : Error, e.Status ≠ 400 → e.typ ≠ utf8 "Validation" →
      IsValidation (.errorPtr (some e)) = .ok false) ∧
    IsValidation .nil = .ok false ∧
    (∀ msg : GoString, IsValidation (.other msg) = .ok false) := by
  refine ⟨?_, ?_, ?_, ?_, rfl, fun _ => rfl⟩
  · intro err
    constructor
    · intro h
      match err, h with
      | .errorPtr (some e), h =>
        refine ⟨e, rfl, ?_⟩
        simpa [IsValidation, assertError, StatusBadRequest, Error.Status] using h
    · rintro ⟨e, rfl, h⟩
      simpa [IsValidation, assertError, StatusBadRequest, Error.Status] using h
  · intro e h
    simp only [Error.Status] at h
    simp [IsValidation, assertError, StatusBadRequest, h]
  · intro e h
    simp [IsValidation, assertError, h]
  · intro e h1 h2
    simp only [Error.Status] at h1
    simp [IsValidation, assertError, StatusBadRequest, h1, h2]

/-- The classification of C1 at concrete values: status 400 with type "Foo" and type
"Validation" with status 500 are validation errors, status 500 with type "Foo" is not. -/
theorem isValidation_true_iff_witness :
    IsValidation (.errorPtr (some ⟨utf8 "m", utf8 "Foo", 400, none⟩)) = .ok true ∧
    IsValidation (.errorPtr (some ⟨utf8 "m", utf8 "Validation", 500, none⟩)) = .ok true ∧
    IsValidation (.errorPtr (some ⟨utf8 "m", utf8 "Foo", 500, none⟩)) = .ok false :=
  ⟨isValidation_true_iff.2.1 ⟨utf8 "m", utf8 "Foo", 400, none⟩ rfl,
   isValidation_true_iff.2.2.1 ⟨utf8 "m", utf8 "Validation", 500, none⟩ rfl,
   isValidation_true_iff.2.2.2.1 ⟨utf8 "m", utf8 "Foo", 500, none⟩ (by decide) (by decide)⟩

/-! ## Constructors and setters -/

/-- C2: for every message m, `New(m)` has message m, type "InternalServerError", status
500 and no paramName. -/
theorem new_fields (m : GoString) :
    (New m).Error = m ∧ (New m).typ = utf8 "InternalServerError" ∧ (New m).Status = 500 ∧
      (New m).ParamName = none :=
  ⟨rfl, rfl, rfl, rfl⟩

/-- C3: for every message m, `NewValidation(m)` is `New(m)` followed by
`SetType("Validation")` and `SetStatus(400)`: its message is m, its type "Validation",
its status 400, and it has no paramName. -/
theorem newValidation_eq (m : GoString) :
    NewValidation m = ((New m).SetType (utf8 "Validation")).SetStatus 400 ∧
      (NewValidation m).Error = m ∧ (NewValidation m).typ = utf8 "Validation" ∧
      (NewValidation m).Status = 400 ∧ (NewValidation m).ParamName = none :=
  ⟨rfl, rfl, rfl, rfl, rfl⟩

/-- C9: each setter is last-write-wins: setting a then b is setting b, for `SetType`,
`SetStatus` and `SetParamName`; so setting the same value twice is setting it once. -/
theorem setter_last_write_wins (e : Error) :
    (∀ a b : GoString, (e.SetType a).SetType b = e.SetType b) ∧
    (∀ a b : Int, (e.SetStatus a).SetStatus b = e.SetStatus b) ∧
    (∀ a b : GoString, (e.SetParamName a).SetParamName b = e.SetParamName b) ∧
    (∀ a : GoString, (e.SetType a).SetType a = e.SetType a) ∧
    (∀ a : Int, (e.SetStatus a).SetStatus a = e.SetStatus a) ∧
    (∀ a : GoString, (e.SetParamName a).SetParamName a = e.SetParamName a) :=
  ⟨fun _ _ => rfl, fun _ _ => rfl, fun _ _ => rfl, fun _ => rfl, fun _ => rfl, fun _ => rfl⟩

/-- C10: each setter changes its own field and no other: `SetType(t)` sets the type to t,
`SetStatus(s)` the status to any integer s, `SetParamName(n)` the paramName to n, and
each leaves the three other fields, the message among them, as they were. -/
theorem setter_frame (e : Error) :
    (∀ t : GoString, e.SetType t = { e with typ := t } ∧ (e.SetType t).typ = t ∧
      (e.SetType t).Error = e.Error ∧ (e.SetType t).Status = e.Status ∧
      (e.SetType t).ParamName = e.ParamName) ∧
    (∀ s : Int, e.SetStatus s = { e with status := s } ∧ (e.SetStatus s).Status = s ∧
      (e.SetStatus s).Error = e.Error ∧ (e.SetStatus s).typ = e.typ ∧
      (e.SetStatus s).ParamName = e.ParamName) ∧
    (∀ n : GoString, e.SetParamName n = { e with paramName := some n } ∧
      (e.SetParamName n).ParamName = some n ∧ (e.SetParamName n).Error = e.Error ∧
      (e.SetParamName n).typ = e.typ ∧ (e.SetParamName n).Status = e.Status) :=
  ⟨fun _ => ⟨rfl, rfl, rfl, rfl, rfl⟩, fun _ => ⟨rfl, rfl, rfl, rfl, rfl⟩,
   fun _ => ⟨rfl, rfl, rfl, rfl, rfl⟩⟩

/-! ## Valid UTF-8 strings -/

/-- The code point of a character is no surrogate and at most U+10FFFF. -/
theorem char_valid (c : Char) : c.toNat < 0xD800 ∨ (0xDFFF < c.toNat ∧ c.toNat < 0x110000) :=
  c.valid

/-- A number below 256 is the byte of that value. -/
theorem ofNat_val (n : Nat) (h : n < 256) : (Fin.ofNat n : Fin 256).val = n := by
  show n % 256 = n
  omega

/-- Decoding finds at the encoding of a character that character and the length of its
encoding. -/
theorem decode_encode (c : Char) (rest : List Byte) :
    DecodeRuneInString (encodeRune c ++ rest) = (c.toNat, (encodeRune c).length) := by
  have hv := char_valid c
  unfold encodeRune
  generalize c.toNat = n at hv ⊢
  split_ifs with h1 h2 h3
  · have e0 : (Fin.ofNat n : Fin 256).val = n := ofNat_val _ (by omega)
    simp [DecodeRuneInString, e0, h1]
  · have e0 : (Fin.ofNat (0xC0 + n / 64) : Fin 256).val = 0xC0 + n / 64 :=
      ofNat_val _ (by omega)
    have e1 : (Fin.ofNat (0x80 + n % 64) : Fin 256).val = 0x80 + n % 64 :=
      ofNat_val _ (by omega)
    have hf : first (0xC0 + n / 64) = some (2, 0x80, 0xBF) := by
      unfold first
      rw [if_pos (by omega)]
    have c0 : ¬ (0xC0 + n / 64 < 0x80) := by omega
    have c1 : ¬ (0x80 + n % 64 < 0x80 ∨ 0xBF < 0x80 + n % 64) := by omega
    simp only [List.cons_append, List.nil_append, DecodeRuneInString, e0, e1, hf, c0, c1,
      if_false, le_refl, if_true, List.length_cons, List.length_nil]
    congr 1
    omega
  · have e0 : (Fin.ofNat (0xE0 + n / 4096) : Fin 256).val = 0xE0 + n / 4096 :=
      ofNat_val _ (by omega)
    have e1 : (Fin.ofNat (0x80 + n / 64 % 64) : Fin 256).val = 0x80 + n / 64 % 64 :=
      ofNat_val _ (by omega)
    have e2 : (Fin.ofNat (0x80 + n % 64) : Fin 256).val = 0x80 + n % 64 :=
      ofNat_val _ (by omega)
    have hf : ∃ lo hi, first (0xE0 + n / 4096) = some (3, lo, hi) ∧
        ¬ (0x80 + n / 64 % 64 < lo ∨ hi < 0x80 + n / 64 % 64) := by
      unfold first
      rw [if_neg (by omega)]
      by_cases k0 : 0xE0 + n / 4096 = 0xE0
      · rw [if_pos k0]; exact ⟨_, _, rfl, by omega⟩
      rw [if_neg k0]
      by_cases k1 : 0xE1 ≤ 0xE0 + n / 4096 ∧ 0xE0 + n / 4096 ≤ 0xEC
      · rw [if_pos k1]; exact ⟨_, _, rfl, by omega⟩
      rw [if_neg k1]
      by_cases k2 : 0xE0 + n / 4096 = 0xED
      · rw [if_pos k2]; exact ⟨_, _, rfl, by omega⟩
      rw [if_neg k2, if_pos (by omega)]
      exact ⟨_, _, rfl, by omega⟩
    obtain ⟨lo, hi, hf, c1⟩ := hf
    have c0 : ¬ (0xE0 + n / 4096 < 0x80) := by omega
    have c2 : ¬ (0x80 + n % 64 < 0x80 ∨ 0xBF < 0x80 + n % 64) := by omega
    have c3 : ¬ (3 ≤ 2) := by omega
    simp only [List.cons_append, List.nil_append, DecodeRuneInString, e0, e1, e2, hf, c0,
      c1, c2, c3, if_false, le_refl, if_true, List.length_cons, List.length_nil]
    congr 1
    omega
  · have e0 : (Fin.ofNat (0xF0 + n / 262144) : Fin 256).val = 0xF0 + n / 262144 :=
      ofNat_val _ (by omega)
    have e1 : (Fin.ofNat (0x80 + n / 4096 % 64) : Fin 256).val = 0x80 + n / 4096 % 64 :=
      ofNat_val _ (by omega)
    have e2 : (Fin.ofNat (0x80 + n / 64 % 64) : Fin 256).val = 0x80 + n / 64 % 64 :=
      ofNat_val _ (by omega)
    have e3 : (Fin.ofNat (0x80 + n % 64) : Fin 256).val = 0x80 + n % 64 :=
      ofNat_val _ (by omega)
    have hf : ∃ lo hi, first (0xF0 + n / 262144) = some (4, lo, hi) ∧
        ¬ (0x80 + n / 4096 % 64 < lo ∨ hi < 0x80 + n / 4096 % 64) := by
      unfold first
      rw [if_neg (by omega), if_neg (by omega), if_neg (by omega), if_neg (by omega),
        if_neg (by omega)]
      by_cases k0 : 0xF0 + n / 262144 = 0xF0
      · rw [if_pos k0]; exact ⟨_, _, rfl, by omega⟩
      rw [if_neg k0]
      by_cases k1 : 0xF1 ≤ 0xF0 + n / 262144 ∧ 0xF0 + n / 262144 ≤ 0xF3
      · rw [if_pos k1]; exact ⟨_, _, rfl, by omega⟩
      rw [if_neg k1, if_pos (by omega)]
      exact ⟨_, _, rfl, by omega⟩
    obtain ⟨lo, hi, hf, c1⟩ := hf
    have c0 : ¬ (0xF0 + n / 262144 < 0x80) := by omega
    have c2 : ¬ (0x80 + n / 64 % 64 < 0x80 ∨ 0xBF < 0x80 + n / 64 % 64) := by omega
    have c3 : ¬ (0x80 + n % 64 < 0x80 ∨ 0xBF < 0x80 + n % 64) := by omega
    have c4 : ¬ (4 ≤ 2) := by omega
    have c5 : ¬ (4 ≤ 3) := by omega
    simp only [List.cons_append, List.nil_append, DecodeRuneInString, e0, e1, e2, e3, hf,
      c0, c1, c2, c3, c4, c5, if_false, le_refl, if_true, List.length_cons, List.length_nil]
    congr 1
    omega

/-- The loop skips a byte of an encoding already decoded. -/
theorem runesFrom_succ (k : Nat) (x : Byte) (bs : List Byte) :
    runesFrom (k + 1) (x :: bs) = runesFrom k bs := rfl

/-- The loop decodes at a byte that is not skipped. -/
theorem runesFrom_zero (b : Byte) (bs : List Byte) :
    runesFrom 0 (b :: bs) =
      (if (DecodeRuneInString (b :: bs)).1 = RuneError ∧ (DecodeRuneInString (b :: bs)).2 = 1
        then none else some (Char.ofNat (DecodeRuneInString (b :: bs)).1)) ::
        runesFrom ((DecodeRuneInString (b :: bs)).2 - 1) bs := rfl

/-- The loop skips as many bytes as it is told. -/
theorem runesFrom_skip (xs rest : List Byte) :
    runesFrom xs.length (xs ++ rest) = runesFrom 0 rest := by
  induction xs with
  | nil => rfl
  | cons x xs ih =>
    rw [List.length_cons, List.cons_append, runesFrom_succ]
    exact ih

/-- The encoding of a character is not empty. -/
theorem encodeRune_ne_nil (c : Char) : ∃ b tail, encodeRune c = b :: tail := by
  unfold encodeRune
  split_ifs <;> exact ⟨_, _, rfl⟩

/-- The loop finds at the encoding of a character that character. -/
theorem runesFrom_encodeRune (c : Char) (rest : List Byte) :
    runesFrom 0 (encodeRune c ++ rest) = some c :: runesFrom 0 rest := by
  have hd := decode_encode c rest
  obtain ⟨b, tail, hb⟩ := encodeRune_ne_nil c
  rw [hb] at hd ⊢
  rw [List.cons_append] at hd ⊢
  rw [runesFrom_zero, hd]
  have hne : ¬ (c.toNat = RuneError ∧ (b :: tail).length = 1) := by
    rintro ⟨h1, h2⟩
    have hlen : (encodeRune c).length = 1 := by rw [hb]; exact h2
    unfold encodeRune at hlen
    unfold RuneError at h1
    rw [h1] at hlen
    simp at hlen
  rw [if_neg hne, List.length_cons, Nat.add_sub_cancel, runesFrom_skip]
  simp [Char.ofNat_toNat]

/-- A valid UTF-8 string is walked character by character, with no invalid byte. -/
theorem runes_utf8 (s : String) :
    GoString.runes (utf8 s) = s.data.map some := by
  unfold GoString.runes utf8
  induction s.data with
  | nil => rfl
  | cons c cs ih =>
    simp only [List.flatMap_cons, List.map_cons]
    rw [runesFrom_encodeRune, ih]

/-- Coercion to valid UTF-8 leaves a valid UTF-8 string as it is. -/
theorem coerced_utf8 (s : String) : (utf8 s).coerced = s := by
  unfold GoString.coerced
  rw [runes_utf8, List.map_map]
  have h : ((fun r : Option Char => r.getD (Char.ofNat RuneError)) ∘ some) = id := rfl
  rw [h, List.map_id]

/-! ## The text that MarshalJSON returns -/

/-- The characters of a string literal: the quotes around the encoded characters. -/
theorem appendString_data (s : GoString) :
    (appendString s).data = '"' :: (appendRunes s.runes ++ ['"']) := rfl

/-- The key "message" comes after the key "error". -/
theorem keyLE_message_error : keyLE (utf8 "message") (utf8 "error") = false := by decide

/-- The key "error" comes before the key "message". -/
theorem keyLE_error_message : keyLE (utf8 "error") (utf8 "message") = true := by decide

/-- The key "paramName" comes after the key "error". -/
theorem keyLE_paramName_error : keyLE (utf8 "paramName") (utf8 "error") = false := by decide

/-- The key "paramName" comes after the key "message". -/
theorem keyLE_paramName_message : keyLE (utf8 "paramName") (utf8 "message") = false := by
  decide

/-- The key "error" as a string literal. -/
theorem appendString_error : appendString (utf8 "error") = "\"error\"" := by decide

/-- The key "message" as a string literal. -/
theorem appendString_message : appendString (utf8 "message") = "\"message\"" := by decide

/-- The key "paramName" as a string literal. -/
theorem appendString_paramName : appendString (utf8 "paramName") = "\"paramName\"" := by
  decide

/-- The text that `MarshalJSON` returns when paramName is nil: two members. -/
theorem marshalJSON_none (e : Error) (h : e.paramName = none) :
    e.MarshalJSON = .ok ⟨"\x7b\"error\":\"".data ++ (appendRunes e.typ.runes ++
      ("\",\"message\":\"".data ++ (appendRunes e.err.runes ++ "\"\x7d".data)))⟩ := by
  simp only [Error.MarshalJSON, h, Marshal, sortByKey, sortedInsert, keyLE_message_error,
    keyLE_error_message]
  simp only [bne_self_eq_false, Bool.false_eq_true, ↓reduceIte, List.map, encodeMember,
    encodeValue, appendString_error, appendString_message, String.intercalate,
    String.intercalate.go]
  congr 1
  apply String.ext
  simp [appendString_data]

/-- The text that `MarshalJSON` returns when paramName is set: three members. -/
theorem marshalJSON_some (e : Error) (p : GoString) (h : e.paramName = some p) :
    e.MarshalJSON = .ok ⟨"\x7b\"error\":\"".data ++ (appendRunes e.typ.runes ++
      ("\",\"message\":\"".data ++ (appendRunes e.err.runes ++
        ("\",\"paramName\":\"".data ++ (appendRunes p.runes ++ "\"\x7d".data)))))⟩ := by
  have k1 : (utf8 "error" == utf8 "paramName") = false := by decide
  have k2 : (utf8 "message" == utf8 "paramName") = false := by decide
  have hset : Map.set [(utf8 "error", .str e.typ), (utf8 "message", .str e.err)]
      (utf8 "paramName") (.strPtr (some p)) =
      [(utf8 "error", .str e.typ), (utf8 "message", .str e.err),
        (utf8 "paramName", .strPtr (some p))] := by
    simp [Map.set, k1, k2]
  simp only [Error.MarshalJSON, h, hset, Marshal, sortByKey, sortedInsert,
    keyLE_message_error, keyLE_error_message, keyLE_paramName_error, keyLE_paramName_message]
  simp only [bne_iff_ne, ne_eq, reduceCtorEq, not_false_eq_true, ↓reduceIte,
    Bool.false_eq_true, List.map, encodeMember,
    encodeValue, appendString_error, appendString_message, appendString_paramName,
    String.intercalate, String.intercalate.go]
  congr 1
  apply String.ext
  simp [appendString_data]

/-! ## Characters that are written as they are -/

/-- A plain character is written as it is. -/
theorem appendRune_plain (c : Char) (h : isPlain c = true) : appendRune c = [c] := by
  unfold isPlain at h
  unfold appendRune
  by_cases h80 : c.toNat < 0x80
  · simp only [h80, ↓reduceIte] at h ⊢
    simp [h]
  · simp only [h80, ↓reduceIte] at h ⊢
    simp only [Bool.and_eq_true, bne_iff_ne, ne_eq] at h
    simp [h.1, h.2]

/-- A sequence of plain characters is written as it is. -/
theorem appendRunes_plain (l : List Char) (h : l.all isPlain = true) :
    appendRunes (l.map some) = l := by
  induction l with
  | nil => rfl
  | cons c cs ih =>
    simp only [List.all_cons, Bool.and_eq_true] at h
    have := ih h.2
    simp only [appendRunes, List.map_cons, List.flatMap_cons, appendStep] at this ⊢
    rw [this, appendRune_plain c h.1]
    rfl

/-- The reader gives every digit of the table `hex` its value. -/
theorem hexVal_hex (n : Nat) (h : n < 16) : hexVal (hex n) = some n := by
  interval_cases n <;> decide

/-! ## Reading back what the encoder wrote -/

/-- After a character of a string literal the reader is still inside the literal. -/
theorem push_mode (r : Reader) (k : Bool) (c : Char) : (r.push k c).mode = .inString k := rfl

/-- Inside a string literal the reader takes an ordinary character as it is. -/
theorem run_plain_char (r : Reader) (k : Bool) (c : Char) (rest : List Char)
    (h : r.mode = .inString k) (h1 : c ≠ '"') (h2 : c ≠ '\\') (h3 : ¬ c.toNat < 0x20) :
    Reader.run r (c :: rest) = Reader.run (r.push k c) rest := by
  simp [Reader.run, Reader.step, h, h1, h2, h3]

/-- The value of the digit 0. -/
theorem hexVal_zero : hexVal '0' = some 0 := by decide

/-- The value of the digit 2. -/
theorem hexVal_two : hexVal '2' = some 2 := by decide

/-- Inside a string literal the reader decodes what the encoder wrote for a character to
that character. -/
theorem run_appendRune (r : Reader) (k : Bool) (c : Char) (rest : List Char)
    (h : r.mode = .inString k) :
    Reader.run r (appendRune c ++ rest) = Reader.run (r.push k c) rest := by
  unfold appendRune
  split_ifs with h80 hs h1 h2 h3 h4 h5 h6 h7
  · simp only [htmlSafeSet, Bool.and_eq_true, decide_eq_true_eq, bne_iff_ne, ne_eq] at hs
    obtain ⟨⟨⟨⟨⟨⟨hlo, _⟩, hq⟩, _⟩, _⟩, _⟩, hb⟩ := hs
    exact run_plain_char r k c rest h hq hb (by omega)
  · rcases h1 with rfl | rfl <;> simp [Reader.run, Reader.step, h, Reader.push]
  · subst h2; simp [Reader.run, Reader.step, h, Reader.push]
  · subst h3; simp [Reader.run, Reader.step, h, Reader.push]
  · subst h4; simp [Reader.run, Reader.step, h, Reader.push]
  · subst h5; simp [Reader.run, Reader.step, h, Reader.push]
  · subst h6; simp [Reader.run, Reader.step, h, Reader.push]
  · have hhi : hexVal (hex (c.toNat / 16)) = some (c.toNat / 16) :=
      hexVal_hex _ (by omega)
    have hlo : hexVal (hex (c.toNat % 16)) = some (c.toNat % 16) :=
      hexVal_hex _ (by omega)
    have hsum : c.toNat / 16 * 16 + c.toNat % 16 = c.toNat := by omega
    have hvalid : c.toNat.isValidChar := c.valid
    simp [Reader.run, Reader.step, h, Reader.push, hexVal_zero, hhi, hlo, hsum, hvalid]
  · have h8 : hexVal (hex 8) = some 8 := by decide
    have h9 : hexVal (hex 9) = some 9 := by decide
    have v8 : Nat.isValidChar 8232 := by decide
    have v9 : Nat.isValidChar 8233 := by decide
    rcases h7 with rfl | rfl
    · have e8 : ('\u2028' : Char).toNat % 16 = 8 := by decide
      have c8 : Char.ofNat 8232 = '\u2028' := by decide
      simp [Reader.run, Reader.step, h, Reader.push, hexVal_zero, hexVal_two, e8, h8, v8, c8]
    · have e9 : ('\u2029' : Char).toNat % 16 = 9 := by decide
      have c9 : Char.ofNat 8233 = '\u2029' := by decide
      simp [Reader.run, Reader.step, h, Reader.push, hexVal_zero, hexVal_two, e9, h9, v9, c9]
  · have hq : c ≠ '"' := by rintro rfl; exact h80 (by decide)
    have hb : c ≠ '\\' := by rintro rfl; exact h80 (by decide)
    exact run_plain_char r k c rest h hq hb (by omega)

/-- The value of the digit f. -/
theorem hexVal_f : hexVal 'f' = some 15 := by decide

/-- The value of the digit d. -/
theorem hexVal_d : hexVal 'd' = some 13 := by decide

/-- Inside a string literal the reader decodes what the encoder wrote for a character, or
for an invalid byte, to that character, or to U+FFFD. -/
theorem run_appendStep (r : Reader) (k : Bool) (u : Option Char) (rest : List Char)
    (h : r.mode = .inString k) :
    Reader.run r (appendStep u ++ rest) =
      Reader.run (r.push k (u.getD (Char.ofNat RuneError))) rest := by
  cases u with
  | some c => exact run_appendRune r k c rest h
  | none =>
    have hv : Nat.isValidChar 65533 := by decide
    simp [appendStep, Reader.run, Reader.step, h, Reader.push, hexVal_f, hexVal_d, hv,
      RuneError]

/-- Inside a string literal the reader decodes what the encoder wrote for a string to
the characters of the string, with U+FFFD for every invalid byte. -/
theorem run_appendRunes (s : List (Option Char)) (r : Reader) (k : Bool)
    (rest : List Char) (h : r.mode = .inString k) :
    Reader.run r (appendRunes s ++ rest) =
      Reader.run
        { r with buf := r.buf ++ s.map (fun u => u.getD (Char.ofNat RuneError)) } rest := by
  induction s generalizing r with
  | nil =>
    simp [appendRunes]
  | cons c cs ih =>
    have hstep := ih (r.push k (c.getD (Char.ofNat RuneError))) (push_mode r k _)
    simp only [appendRunes, List.flatMap_cons, List.append_assoc] at hstep ⊢
    rw [run_appendStep r k c _ h, hstep]
    simp [Reader.push, h]

/-! ## Compaction leaves the encoder's text as it is -/

/-- Inside a string literal compaction copies a character that is neither an HTML
character, nor a line separator, nor the quote, nor the backslash. -/
theorem compactFrom_inString_plain (c : Char) (rest : List Char) (h1 : c ≠ '<')
    (h2 : c ≠ '>') (h3 : c ≠ '&') (h4 : c ≠ '\u2028') (h5 : c ≠ '\u2029') (h6 : c ≠ '"')
    (h7 : c ≠ '\\') :
    compactFrom .inString (c :: rest) = c :: compactFrom .inString rest := by
  simp [compactFrom, scanStep, h1, h2, h3, h4, h5, h6, h7]

/-- Inside a string literal compaction copies a backslash and the character after it. -/
theorem compactFrom_escape (c : Char) (rest : List Char) (h1 : c ≠ '<')
    (h2 : c ≠ '>') (h3 : c ≠ '&') (h4 : c ≠ '\u2028') (h5 : c ≠ '\u2029') :
    compactFrom .inString ('\\' :: c :: rest) = '\\' :: c :: compactFrom .inString rest := by
  simp [compactFrom, scanStep, h1, h2, h3, h4, h5]

/-- The digits of the table `hex` are ordinary characters. -/
theorem hex_plain (n : Nat) (h : n < 16) :
    hex n ≠ '<' ∧ hex n ≠ '>' ∧ hex n ≠ '&' ∧ hex n ≠ '\u2028' ∧ hex n ≠ '\u2029' ∧
      hex n ≠ '"' ∧ hex n ≠ '\\' := by
  interval_cases n <;> decide

/-- Inside a string literal compaction copies a digit of the table `hex`. -/
theorem compactFrom_hex (n : Nat) (h : n < 16) (rest : List Char) :
    compactFrom .inString (hex n :: rest) = hex n :: compactFrom .inString rest := by
  obtain ⟨h1, h2, h3, h4, h5, h6, h7⟩ := hex_plain n h
  exact compactFrom_inString_plain _ rest h1 h2 h3 h4 h5 h6 h7

/-- Inside a string literal compaction copies what the encoder wrote for a character. -/
theorem compactFrom_appendRune (c : Char) (rest : List Char) :
    compactFrom .inString (appendRune c ++ rest) =
      appendRune c ++ compactFrom .inString rest := by
  unfold appendRune
  split_ifs with h80 hs h1 h2 h3 h4 h5 h6 h7
  · simp only [htmlSafeSet, Bool.and_eq_true, decide_eq_true_eq, bne_iff_ne, ne_eq] at hs
    obtain ⟨⟨⟨⟨⟨⟨_, _⟩, hq⟩, ha⟩, hl⟩, hg⟩, hb⟩ := hs
    refine compactFrom_inString_plain c rest hl hg ha ?_ ?_ hq hb
    · rintro rfl; exact absurd h80 (by decide)
    · rintro rfl; exact absurd h80 (by decide)
  · rcases h1 with rfl | rfl <;>
      exact compactFrom_escape _ rest (by decide) (by decide) (by decide) (by decide)
        (by decide)
  · exact compactFrom_escape _ rest (by decide) (by decide) (by decide) (by decide) (by decide)
  · exact compactFrom_escape _ rest (by decide) (by decide) (by decide) (by decide) (by decide)
  · exact compactFrom_escape _ rest (by decide) (by decide) (by decide) (by decide) (by decide)
  · exact compactFrom_escape _ rest (by decide) (by decide) (by decide) (by decide) (by decide)
  · exact compactFrom_escape _ rest (by decide) (by decide) (by decide) (by decide) (by decide)
  · have e0 := compactFrom_hex 0 (by decide)
    have ehi := compactFrom_hex (c.toNat / 16) (by omega)
    have elo := compactFrom_hex (c.toNat % 16) (by omega)
    have z : hex 0 = '0' := by decide
    rw [z] at e0
    simp only [List.cons_append, List.nil_append]
    rw [compactFrom_escape 'u' _ (by decide) (by decide) (by decide) (by decide) (by decide),
      e0, e0, ehi, elo]
  · have e0 := compactFrom_hex 0 (by decide)
    have e2 := compactFrom_hex 2 (by decide)
    have elo := compactFrom_hex (c.toNat % 16) (by omega)
    have z : hex 0 = '0' := by decide
    have t : hex 2 = '2' := by decide
    rw [z] at e0
    rw [t] at e2
    simp only [List.cons_append, List.nil_append]
    rw [compactFrom_escape 'u' _ (by decide) (by decide) (by decide) (by decide) (by decide),
      e2, e0, e2, elo]
  · have hne : ∀ d : Char, d.toNat < 128 → c ≠ d := by
      rintro d hd rfl; exact h80 hd
    simp only [not_or] at h7
    exact compactFrom_inString_plain c rest (hne _ (by decide)) (hne _ (by decide))
      (hne _ (by decide)) h7.1 h7.2 (hne _ (by decide)) (hne _ (by decide))

/-- Inside a string literal compaction copies what the encoder wrote for a character or
for an invalid byte. -/
theorem compactFrom_appendStep (u : Option Char) (rest : List Char) :
    compactFrom .inString (appendStep u ++ rest) =
      appendStep u ++ compactFrom .inString rest := by
  cases u with
  | some c => exact compactFrom_appendRune c rest
  | none =>
    have ef := compactFrom_hex 15 (by decide)
    have ed := compactFrom_hex 13 (by decide)
    have hf : hex 15 = 'f' := by decide
    have hd : hex 13 = 'd' := by decide
    rw [hf] at ef
    rw [hd] at ed
    simp only [appendStep, List.cons_append, List.nil_append]
    rw [compactFrom_escape 'u' _ (by decide) (by decide) (by decide) (by decide) (by decide),
      ef, ef, ef, ed]

/-- Inside a string literal compaction copies what the encoder wrote for a string. -/
theorem compactFrom_appendRunes (s : List (Option Char)) (rest : List Char) :
    compactFrom .inString (appendRunes s ++ rest) =
      appendRunes s ++ compactFrom .inString rest := by
  induction s with
  | nil => simp [appendRunes]
  | cons c cs ih =>
    simp only [appendRunes, List.flatMap_cons, List.append_assoc] at ih ⊢
    rw [compactFrom_appendStep, ih]

/-- Compaction copies the text of an object with the members error and message. -/
theorem compactFrom_text_none (a b : List (Option Char)) :
    compactFrom .outside ("\x7b\"error\":\"".data ++ (appendRunes a ++
      ("\",\"message\":\"".data ++ (appendRunes b ++ "\"\x7d".data)))) =
    "\x7b\"error\":\"".data ++ (appendRunes a ++
      ("\",\"message\":\"".data ++ (appendRunes b ++ "\"\x7d".data))) := by
  simp [compactFrom, scanStep, compactFrom_appendRunes]

/-- Compaction copies the text of an object with the members error, message and
paramName. -/
theorem compactFrom_text_some (a b c : List (Option Char)) :
    compactFrom .outside ("\x7b\"error\":\"".data ++ (appendRunes a ++
      ("\",\"message\":\"".data ++ (appendRunes b ++
        ("\",\"paramName\":\"".data ++ (appendRunes c ++ "\"\x7d".data)))))) =
    "\x7b\"error\":\"".data ++ (appendRunes a ++
      ("\",\"message\":\"".data ++ (appendRunes b ++
        ("\",\"paramName\":\"".data ++ (appendRunes c ++ "\"\x7d".data))))) := by
  simp [compactFrom, scanStep, compactFrom_appendRunes]

/-- Compaction leaves the text that `MarshalJSON` returns as it is. -/
theorem compact_marshalJSON (e : Error) (t : String) (h : e.MarshalJSON = .ok t) :
    compact t = t := by
  cases hp : e.paramName with
  | none =>
    rw [marshalJSON_none e hp] at h
    injection h with h
    subst h
    exact String.ext (compactFrom_text_none _ _)
  | some p =>
    rw [marshalJSON_some e p hp] at h
    injection h with h
    subst h
    exact String.ext (compactFrom_text_some _ _ _)

/-! ## The members that the text of MarshalJSON parses to -/

/-- The reader inside a string literal, with its state spelled out. -/
theorem run_string (k : Bool) (m : List (String × Option String)) (key : String)
    (b : List Char) (s : List (Option Char)) (rest : List Char) :
    Reader.run { mode := .inString k, members := m, key := key, buf := b }
        (appendRunes s ++ rest) =
      Reader.run { mode := .inString k, members := m, key := key,
                   buf := b ++ s.map (fun u => u.getD (Char.ofNat RuneError)) } rest :=
  run_appendRunes s _ k rest rfl

/-- After the closing brace the reader skips white space. -/
theorem run_finished (m : List (String × Option String)) (key : String) (b ws : List Char)
    (h : ws.all isSpace = true) :
    Reader.run { mode := .finished, members := m, key := key, buf := b } ws =
      some { mode := .finished, members := m, key := key, buf := b } := by
  induction ws with
  | nil => rfl
  | cons c cs ih =>
    simp only [List.all_cons, Bool.and_eq_true] at h
    simp [Reader.run, Reader.step, h.1, ih h.2]

/-- The reader on the text of an object with the members error and message, followed by
white space. -/
theorem run_text_none (a b : List (Option Char)) (ws : List Char)
    (h : ws.all isSpace = true) :
    Reader.run { mode := .start, members := [], key := "", buf := [] }
      (("\x7b\"error\":\"".data ++ (appendRunes a ++
        ("\",\"message\":\"".data ++ (appendRunes b ++ "\"\x7d".data)))) ++ ws) =
    some { mode := .finished,
           members :=
             [("error", some ⟨a.map (fun u => u.getD (Char.ofNat RuneError))⟩),
              ("message", some ⟨b.map (fun u => u.getD (Char.ofNat RuneError))⟩)],
           key := "message", buf := [] } := by
  simp [Reader.run, Reader.step, run_string, isSpace, Reader.endString, Reader.push,
    run_finished, h]

/-- The reader on the text of an object with the members error, message and paramName,
followed by white space. -/
theorem run_text_some (a b c : List (Option Char)) (ws : List Char)
    (h : ws.all isSpace = true) :
    Reader.run { mode := .start, members := [], key := "", buf := [] }
      (("\x7b\"error\":\"".data ++ (appendRunes a ++
        ("\",\"message\":\"".data ++ (appendRunes b ++
          ("\",\"paramName\":\"".data ++ (appendRunes c ++ "\"\x7d".data)))))) ++ ws) =
    some { mode := .finished,
           members :=
             [("error", some ⟨a.map (fun u => u.getD (Char.ofNat RuneError))⟩),
              ("message", some ⟨b.map (fun u => u.getD (Char.ofNat RuneError))⟩),
              ("paramName", some ⟨c.map (fun u => u.getD (Char.ofNat RuneError))⟩)],
           key := "paramName", buf := [] } := by
  simp [Reader.run, Reader.step, run_string, isSpace, Reader.endString, Reader.push,
    run_finished, h]

/-- The members of the text of an object with error and message. -/
theorem parseObject_text_none (a b : GoString) (ws : List Char)
    (h : ws.all isSpace = true) :
    parseObject ⟨("\x7b\"error\":\"".data ++ (appendRunes a.runes ++
        ("\",\"message\":\"".data ++ (appendRunes b.runes ++ "\"\x7d".data)))) ++ ws⟩ =
      some [("error", some a.coerced), ("message", some b.coerced)] := by
  have := run_text_none a.runes b.runes ws h
  dsimp only [parseObject]
  rw [this]
  rfl

/-- The members of the text of an object with error, message and paramName. -/
theorem parseObject_text_some (a b c : GoString) (ws : List Char)
    (h : ws.all isSpace = true) :
    parseObject ⟨("\x7b\"error\":\"".data ++ (appendRunes a.runes ++
        ("\",\"message\":\"".data ++ (appendRunes b.runes ++
          ("\",\"paramName\":\"".data ++ (appendRunes c.runes ++ "\"\x7d".data)))))) ++ ws⟩ =
      some [("error", some a.coerced), ("message", some b.coerced),
        ("paramName", some c.coerced)] := by
  have := run_text_some a.runes b.runes c.runes ws h
  dsimp only [parseObject]
  rw [this]
  rfl

/-- The values under the three keys in an object with error and message. -/
theorem member_two (a b : Option String) :
    member [("error", a), ("message", b)] "error" = some a ∧
    member [("error", a), ("message", b)] "message" = some b ∧
    member [("error", a), ("message", b)] "paramName" = none := by
  refine ⟨?_, ?_, ?_⟩ <;> simp [member, List.lookup]

/-- The values under the three keys in an object with error, message and paramName. -/
theorem member_three (a b c : Option String) :
    member [("error", a), ("message", b), ("paramName", c)] "error" = some a ∧
    member [("error", a), ("message", b), ("paramName", c)] "message" = some b ∧
    member [("error", a), ("message", b), ("paramName", c)] "paramName" = some c := by
  refine ⟨?_, ?_, ?_⟩ <;> simp [member, List.lookup]

/-- The text that `MarshalJSON` returns when the three strings are valid UTF-8 and
plain. -/
theorem marshalJSON_plain_text (e : Error) (c m p : String) (hc : e.typ = utf8 c)
    (hm : e.err = utf8 m) (hp : e.paramName = some (utf8 p))
    (pc : NoEscape c = true) (pm : NoEscape m = true) (pp : NoEscape p = true) :
    e.MarshalJSON = .ok ("\x7b\"error\":\"" ++ c ++ "\",\"message\":\"" ++ m ++
      "\",\"paramName\":\"" ++ p ++ "\"\x7d") := by
  rw [marshalJSON_some e (utf8 p) hp, hc, hm, runes_utf8, runes_utf8, runes_utf8,
    appendRunes_plain _ pc, appendRunes_plain _ pm, appendRunes_plain _ pp]
  congr 1
  apply String.ext
  simp [String.data_append]

/-- C6 (as amended): for every `*Error` value whose type c, message m and paramName p
are valid UTF-8 and hold none of the characters that encoding/json escapes, `MarshalJSON`
succeeds and returns exactly the bytes of the object with the keys error, message and
paramName in this order, whatever the status and in whatever order the setters were
called. -/
theorem marshalJSON_exact_bytes (m c p : String) (s : Int) (hc : NoEscape c = true)
    (hm : NoEscape m = true) (hp : NoEscape p = true) :
    (∀ e : Error, e.err = utf8 m → e.typ = utf8 c → e.paramName = some (utf8 p) →
      e.MarshalJSON = .ok ("\x7b\"error\":\"" ++ c ++ "\",\"message\":\"" ++ m ++
        "\",\"paramName\":\"" ++ p ++ "\"\x7d")) ∧
    (∀ e : Error, e ∈ [(((New (utf8 m)).SetType (utf8 c)).SetStatus s).SetParamName (utf8 p),
        (((New (utf8 m)).SetType (utf8 c)).SetParamName (utf8 p)).SetStatus s,
        (((New (utf8 m)).SetStatus s).SetType (utf8 c)).SetParamName (utf8 p),
        (((New (utf8 m)).SetStatus s).SetParamName (utf8 p)).SetType (utf8 c),
        (((New (utf8 m)).SetParamName (utf8 p)).SetType (utf8 c)).SetStatus s,
        (((New (utf8 m)).SetParamName (utf8 p)).SetStatus s).SetType (utf8 c)] →
      e.MarshalJSON = .ok ("\x7b\"error\":\"" ++ c ++ "\",\"message\":\"" ++ m ++
        "\",\"paramName\":\"" ++ p ++ "\"\x7d")) := by
  have key : ∀ e : Error, e.err = utf8 m → e.typ = utf8 c → e.paramName = some (utf8 p) →
      e.MarshalJSON = .ok ("\x7b\"error\":\"" ++ c ++ "\",\"message\":\"" ++ m ++
        "\",\"paramName\":\"" ++ p ++ "\"\x7d") := by
    intro e h1 h2 h3
    exact marshalJSON_plain_text e c m p h2 h1 h3 hc hm hp
  refine ⟨key, ?_⟩
  intro e he
  simp only [List.mem_cons, List.mem_singleton, List.not_mem_nil, or_false] at he
  rcases he with rfl | rfl | rfl | rfl | rfl | rfl <;> exact key _ rfl rfl rfl

/-- The serialization of C6 at the value of the package's test: type "Test", message
"test error", status 500 and paramName "name". -/
theorem marshalJSON_exact_bytes_witness :
    ((((New (utf8 "test error")).SetType (utf8 "Test")).SetStatus 500).SetParamName
        (utf8 "name")).MarshalJSON =
      .ok "\x7b\"error\":\"Test\",\"message\":\"test error\",\"paramName\":\"name\"\x7d" :=
  (marshalJSON_exact_bytes "test error" "Test" "name" 500 (by decide) (by decide)
    (by decide)).1 _ rfl rfl rfl

/-- C6 as stated fails. The type "<" needs no escaping in JSON, and `MarshalJSON` writes
it as a six-character escape. The type that is the single byte C3, which is no control
character, quote or backslash either but is not valid UTF-8, is written as the escape of
U+FFFD. In both cases the bytes returned are not those of the claim. -/
theorem marshalJSON_exact_bytes_counterexample :
    ("<".data.all unescapedJSON = true ∧
      ((((New (utf8 "test error")).SetType (utf8 "<")).SetStatus 500).SetParamName
          (utf8 "name")).MarshalJSON =
        .ok "\x7b\"error\":\"\\u003c\",\"message\":\"test error\",\"paramName\":\"name\"\x7d" ∧
      ((((New (utf8 "test error")).SetType (utf8 "<")).SetStatus 500).SetParamName
          (utf8 "name")).MarshalJSON ≠
        .ok "\x7b\"error\":\"<\",\"message\":\"test error\",\"paramName\":\"name\"\x7d") ∧
    (([0xC3] : GoString).all (fun b => 0x20 ≤ b.val && b != 0x22 && b != 0x5C) = true ∧
      ((((New (utf8 "test error")).SetType [0xC3]).SetStatus 500).SetParamName
          (utf8 "name")).MarshalJSON =
        .ok "\x7b\"error\":\"\\ufffd\",\"message\":\"test error\",\"paramName\":\"name\"\x7d" ∧
      utf8 "\x7b\"error\":\"\\ufffd\",\"message\":\"test error\",\"paramName\":\"name\"\x7d" ≠
        utf8 "\x7b\"error\":\"" ++ [0xC3] ++
          utf8 "\",\"message\":\"test error\",\"paramName\":\"name\"\x7d") := by
  decide

/-- C7 (as amended): the object that `MarshalJSON` produces has the keys "error" (the
type) and "message" (the message), and has the key "paramName" exactly when paramName is
set; when paramName is nil the key is absent, with no null and no empty string in its
place, and there is no other key. Each value is the string coerced to valid UTF-8, with
U+FFFD for every byte that is part of no valid encoding; it is the string itself when
the string is valid UTF-8. -/
theorem marshalJSON_keys (e : Error) :
    (∃ text obj, e.MarshalJSON = .ok text ∧ parseObject text = some obj ∧
      member obj "error" = some (some e.typ.coerced) ∧
      member obj "message" = some (some e.Error.coerced) ∧
      member obj "paramName" = e.ParamName.map (fun p => some p.coerced) ∧
      obj.map Prod.fst =
        "error" :: "message" :: (if e.ParamName.isSome then ["paramName"] else [])) ∧
    (∀ s : String, (utf8 s).coerced = s) := by
  refine ⟨?_, coerced_utf8⟩
  cases hp : e.paramName with
  | none =>
    have hparse := parseObject_text_none e.typ e.err [] rfl
    rw [List.append_nil] at hparse
    obtain ⟨h1, h2, h3⟩ := member_two (some e.typ.coerced) (some e.err.coerced)
    refine ⟨_, _, marshalJSON_none e hp, hparse, h1, h2, ?_, ?_⟩
    · simp [Error.ParamName, hp, h3]
    · simp [Error.ParamName, hp]
  | some p =>
    have hparse := parseObject_text_some e.typ e.err p [] rfl
    rw [List.append_nil] at hparse
    obtain ⟨h1, h2, h3⟩ :=
      member_three (some e.typ.coerced) (some e.err.coerced) (some p.coerced)
    refine ⟨_, _, marshalJSON_some e p hp, hparse, h1, h2, ?_, ?_⟩
    · simp [Error.ParamName, hp, h3]
    · simp [Error.ParamName, hp]

/-- C7 as stated fails: for the paramName that is the three bytes 61 FF 62 the value
under the key "paramName" is the string "a", U+FFFD, "b", which is not the paramName. -/
theorem marshalJSON_keys_counterexample :
    ((New (utf8 "m")).SetParamName [0x61, 0xFF, 0x62]).MarshalJSON =
      .ok "\x7b\"error\":\"InternalServerError\",\"message\":\"m\",\"paramName\":\"a\\ufffdb\"\x7d" ∧
    (parseObject
      "\x7b\"error\":\"InternalServerError\",\"message\":\"m\",\"paramName\":\"a\\ufffdb\"\x7d").bind
        (fun obj => member obj "paramName") = some (some "a\ufffdb") ∧
    utf8 "a\ufffdb" ≠ [0x61, 0xFF, 0x62] := by
  decide

/-! ## WriteResponse -/

/-- A header that has been set is the one that `Get` returns. -/
theorem header_get_set (h : Header) (key value : String) :
    (h.Set key value).Get key = value := by
  simp [Header.Set, Header.Get, List.lookup]

/-- On a `*Error` value `WriteResponse` sets the Content-Type, writes the header with the
status and writes the text of `MarshalJSON` and a newline. -/
theorem writeResponse_eq {σ : Type} (W : ResponseWriter σ) (w : σ) (e : Error) (t : String)
    (ht : e.MarshalJSON = .ok t) :
    WriteResponse W w (.errorPtr (some e)) =
      (W.WriteHeader (W.setHeader w ((W.Header w).Set "Content-Type" "application/json"))
        e.Status).bind (fun w' => W.Write w' (t ++ "\n")) := by
  simp only [WriteResponse, Encode, pure_bind, ht, compact_marshalJSON e t ht]
  rfl

/-- The recorder after `WriteResponse` on a `*Error` value with a three-digit status. -/
theorem writeResponse_recorder (detect : String → String) (rw : ResponseRecorder)
    (e : Error) (t : String) (ht : e.MarshalJSON = .ok t)
    (hs : 100 ≤ e.Status ∧ e.Status ≤ 999) :
    WriteResponse (recorder detect) rw (.errorPtr (some e)) = .ok
      { Code := if rw.wroteHeader then rw.Code else e.Status
        HeaderMap := rw.HeaderMap.Set "Content-Type" "application/json"
        Body := rw.Body.map (fun b => b ++ (t ++ "\n"))
        wroteHeader := true
        snapHeader :=
          if rw.wroteHeader then rw.snapHeader
          else some (rw.HeaderMap.Set "Content-Type" "application/json") } := by
  rw [writeResponse_eq _ _ e t ht]
  have h1 : ¬ (e.Status < 100 ∨ e.Status > 999) := by omega
  cases hw : rw.wroteHeader <;>
    simp [recorder, ResponseRecorder.WriteHeader, ResponseRecorder.Write, hw, h1,
      Except.bind, bind, pure, Except.pure]

/-- The method `MarshalJSON` does not fail. -/
theorem marshalJSON_ok (e : Error) : ∃ t, e.MarshalJSON = .ok t := ⟨_, rfl⟩

/-- The members of the body written for a value without paramName. -/
theorem parseObject_body_none (e : Error) (t : String) (ht : e.MarshalJSON = .ok t)
    (hp : e.paramName = none) :
    parseObject ("" ++ (t ++ "\n")) =
      some [("error", some e.typ.coerced), ("message", some e.err.coerced)] := by
  rw [marshalJSON_none e hp] at ht
  injection ht with ht
  subst ht
  exact parseObject_text_none e.typ e.err ['\n'] rfl

/-- The members of the body written for a value with paramName. -/
theorem parseObject_body_some (e : Error) (t : String) (p : GoString)
    (ht : e.MarshalJSON = .ok t) (hp : e.paramName = some p) :
    parseObject ("" ++ (t ++ "\n")) =
      some [("error", some e.typ.coerced), ("message", some e.err.coerced),
        ("paramName", some p.coerced)] := by
  rw [marshalJSON_some e p hp] at ht
  injection ht with ht
  subst ht
  exact parseObject_text_some e.typ e.err p ['\n'] rfl

/-- The response on a fresh recorder for a `*Error` value with a paramName and a
three-digit status: the members of the body are the strings coerced to valid UTF-8. -/
theorem writeResponse_fresh_some (detect : String → String) (e : Error) (p : GoString)
    (hp : e.paramName = some p) (hlo : 100 ≤ e.Status) (hhi : e.Status ≤ 999) :
    ∃ rr obj, WriteResponse (recorder detect) NewRecorder (.errorPtr (some e)) = .ok rr ∧
      rr.Result.StatusCode = e.Status ∧
      rr.Result.Header.Get "Content-Type" = "application/json" ∧
      parseObject rr.Result.Body = some obj ∧
      member obj "error" = some (some e.typ.coerced) ∧
      member obj "message" = some (some e.err.coerced) ∧
      member obj "paramName" = some (some p.coerced) := by
  obtain ⟨t, ht⟩ := marshalJSON_ok e
  obtain ⟨h1, h2, h3⟩ :=
    member_three (some e.typ.coerced) (some e.err.coerced) (some p.coerced)
  refine ⟨_, _, writeResponse_recorder detect NewRecorder e t ht ⟨hlo, hhi⟩, ?_, ?_, ?_,
    h1, h2, h3⟩
  · have : e.Status ≠ 0 := by omega
    simp [ResponseRecorder.Result, NewRecorder, this]
  · simp [ResponseRecorder.Result, NewRecorder, header_get_set]
  · simpa [ResponseRecorder.Result, NewRecorder] using parseObject_body_some e t p ht hp

/-- The response on a fresh recorder for a `*Error` value without paramName and with a
three-digit status: the members of the body are the strings coerced to valid UTF-8. -/
theorem writeResponse_fresh_none (detect : String → String) (e : Error)
    (hp : e.paramName = none) (hlo : 100 ≤ e.Status) (hhi : e.Status ≤ 999) :
    ∃ rr obj, WriteResponse (recorder detect) NewRecorder (.errorPtr (some e)) = .ok rr ∧
      rr.Result.StatusCode = e.Status ∧
      rr.Result.Header.Get "Content-Type" = "application/json" ∧
      parseObject rr.Result.Body = some obj ∧
      member obj "error" = some (some e.typ.coerced) ∧
      member obj "message" = some (some e.err.coerced) ∧
      member obj "paramName" = none := by
  obtain ⟨t, ht⟩ := marshalJSON_ok e
  obtain ⟨h1, h2, h3⟩ := member_two (some e.typ.coerced) (some e.err.coerced)
  refine ⟨_, _, writeResponse_recorder detect NewRecorder e t ht ⟨hlo, hhi⟩, ?_, ?_, ?_,
    h1, h2, h3⟩
  · have : e.Status ≠ 0 := by omega
    simp [ResponseRecorder.Result, NewRecorder, this]
  · simp [ResponseRecorder.Result, NewRecorder, header_get_set]
  · simpa [ResponseRecorder.Result, NewRecorder] using parseObject_body_none e t ht hp

/-- C4 (as amended): for every `*Error` value whose type c, message m and paramName p
are valid UTF-8 and whose status s has three digits (100 to 999), `WriteResponse` on a
fresh recorder leaves the response with status s, the header Content-Type equal to
"application/json", and a body that parses as a JSON object with error c, message m and
paramName p. -/
theorem writeResponse_error_value (detect : String → String) (e : Error) (c m p : String)
    (hc : e.typ = utf8 c) (hm : e.Error = utf8 m) (hp : e.ParamName = some (utf8 p))
    (hlo : 100 ≤ e.Status) (hhi : e.Status ≤ 999) :
    ∃ rr obj, WriteResponse (recorder detect) NewRecorder (.errorPtr (some e)) = .ok rr ∧
      rr.Result.StatusCode = e.Status ∧
      rr.Result.Header.Get "Content-Type" = "application/json" ∧
      parseObject rr.Result.Body = some obj ∧
      member obj "error" = some (some c) ∧
      member obj "message" = some (some m) ∧
      member obj "paramName" = some (some p) := by
  have h := writeResponse_fresh_some detect e (utf8 p) hp hlo hhi
  have hm' : e.err = utf8 m := hm
  rw [hc, hm', coerced_utf8, coerced_utf8, coerced_utf8] at h
  exact h

/-- The response of C4 at the value of the package's test: type "Error", message "Oops",
paramName "Name" and status 400. -/
theorem writeResponse_error_value_witness :
    ∃ rr obj, WriteResponse (recorder detectPlain) NewRecorder
        (.errorPtr (some ((((New (utf8 "Oops")).SetType (utf8 "Error")).SetParamName
          (utf8 "Name")).SetStatus 400)))
        = .ok rr ∧
      rr.Result.StatusCode = 400 ∧
      rr.Result.Header.Get "Content-Type" = "application/json" ∧
      parseObject rr.Result.Body = some obj ∧
      member obj "error" = some (some "Error") ∧
      member obj "message" = some (some "Oops") ∧
      member obj "paramName" = some (some "Name") :=
  writeResponse_error_value detectPlain
    ((((New (utf8 "Oops")).SetType (utf8 "Error")).SetParamName (utf8 "Name")).SetStatus 400)
    "Error" "Oops" "Name" rfl rfl rfl (by decide) (by decide)

/-- C4 as stated fails. With the status 0, which `SetStatus` accepts, the recorder's
`WriteHeader` panics ("invalid WriteHeader code 0"), and there is no response. With the
message that is the three bytes 61 FF 62, and status 400, the message of the body is "a",
U+FFFD, "b", which is not the message of the value. -/
theorem writeResponse_error_value_counterexample :
    WriteResponse (recorder detectPlain) NewRecorder
      (.errorPtr (some ((((New (utf8 "Oops")).SetType (utf8 "Error")).SetParamName
        (utf8 "Name")).SetStatus 0)))
      = .error (.invalidWriteHeaderCode 0) ∧
    (WriteResponse (recorder detectPlain) NewRecorder
      (.errorPtr (some ((((New [0x61, 0xFF, 0x62]).SetType (utf8 "Error")).SetParamName
        (utf8 "Name")).SetStatus 400)))).map (fun rr => rr.Result.Body) =
      .ok "\x7b\"error\":\"Error\",\"message\":\"a\\ufffdb\",\"paramName\":\"Name\"\x7d\n" ∧
    (parseObject
      "\x7b\"error\":\"Error\",\"message\":\"a\\ufffdb\",\"paramName\":\"Name\"\x7d\n").bind
        (fun obj => member obj "message") = some (some "a\ufffdb") ∧
    utf8 "a\ufffdb" ≠ [0x61, 0xFF, 0x62] := by
  decide

/-- C5 (as amended): for an error that is not a `*Error`, with message g, `WriteResponse`
does on every response target what it does for `New(g)`; on a fresh recorder the response
has status 500, the Content-Type "application/json", and a body that parses as a JSON
object with error "InternalServerError", no paramName key, and as message g coerced to
valid UTF-8, which is g itself when g is valid UTF-8. -/
theorem writeResponse_generic :
    (∀ (g : GoString) (σ : Type) (W : ResponseWriter σ) (w : σ),
      WriteResponse W w (.other g) = WriteResponse W w (.errorPtr (some (New g)))) ∧
    (∀ (g : GoString) (detect : String → String), ∃ rr obj,
      WriteResponse (recorder detect) NewRecorder (.other g) = .ok rr ∧
      rr.Result.StatusCode = 500 ∧
      rr.Result.Header.Get "Content-Type" = "application/json" ∧
      parseObject rr.Result.Body = some obj ∧
      member obj "error" = some (some "InternalServerError") ∧
      member obj "message" = some (some g.coerced) ∧
      member obj "paramName" = none) ∧
    (∀ (s : String) (detect : String → String), ∃ rr obj,
      WriteResponse (recorder detect) NewRecorder (.other (utf8 s)) = .ok rr ∧
      rr.Result.StatusCode = 500 ∧
      rr.Result.Header.Get "Content-Type" = "application/json" ∧
      parseObject rr.Result.Body = some obj ∧
      member obj "error" = some (some "InternalServerError") ∧
      member obj "message" = some (some s) ∧
      member obj "paramName" = none) := by
  have key : ∀ (g : GoString) (detect : String → String), ∃ rr obj,
      WriteResponse (recorder detect) NewRecorder (.other g) = .ok rr ∧
      rr.Result.StatusCode = 500 ∧
      rr.Result.Header.Get "Content-Type" = "application/json" ∧
      parseObject rr.Result.Body = some obj ∧
      member obj "error" = some (some "InternalServerError") ∧
      member obj "message" = some (some g.coerced) ∧
      member obj "paramName" = none := by
    intro g detect
    have h := writeResponse_fresh_none detect (New g) rfl
      (by show (100 : Int) ≤ 500; decide) (by show (500 : Int) ≤ 999; decide)
    have htyp : (New g).typ.coerced = "InternalServerError" := coerced_utf8 _
    rw [htyp] at h
    exact h
  refine ⟨fun _ _ _ _ => rfl, key, fun s detect => ?_⟩
  have h := key (utf8 s) detect
  rw [coerced_utf8] at h
  exact h

/-- The response of C5 at a concrete value: a generic error with message "boom". -/
theorem writeResponse_generic_witness :
    ∃ rr obj, WriteResponse (recorder detectPlain) NewRecorder (.other (utf8 "boom")) = .ok rr ∧
      rr.Result.StatusCode = 500 ∧
      rr.Result.Header.Get "Content-Type" = "application/json" ∧
      parseObject rr.Result.Body = some obj ∧
      member obj "error" = some (some "InternalServerError") ∧
      member obj "message" = some (some "boom") ∧
      member obj "paramName" = none :=
  writeResponse_generic.2.2 "boom" detectPlain

/-- C5 as stated fails: for a generic error whose message is the three bytes 61 FF 62
the message of the body is "a", U+FFFD, "b", which is not the message of the error. -/
theorem writeResponse_generic_counterexample :
    (WriteResponse (recorder detectPlain) NewRecorder (.other [0x61, 0xFF, 0x62])).map
        (fun rr => rr.Result.Body) =
      .ok "\x7b\"error\":\"InternalServerError\",\"message\":\"a\\ufffdb\"\x7d\n" ∧
    (parseObject "\x7b\"error\":\"InternalServerError\",\"message\":\"a\\ufffdb\"\x7d\n").bind
        (fun obj => member obj "message") = some (some "a\ufffdb") ∧
    utf8 "a\ufffdb" ≠ [0x61, 0xFF, 0x62] := by
  decide

/-- On a recorder in any state `WriteResponse` completes for a `*Error` value with a
three-digit status: the header is written, the Content-Type set and the body extended. -/
theorem writeResponse_recorder_emits (detect : String → String) (rw : ResponseRecorder)
    (e : Error) (hlo : 100 ≤ e.Status) (hhi : e.Status ≤ 999) :
    ∃ rw' t, WriteResponse (recorder detect) rw (.errorPtr (some e)) = .ok rw' ∧
      e.MarshalJSON = .ok t ∧ rw'.wroteHeader = true ∧
      rw'.HeaderMap.Get "Content-Type" = "application/json" ∧
      rw'.Body = rw.Body.map (fun b => b ++ (t ++ "\n")) := by
  obtain ⟨t, ht⟩ := marshalJSON_ok e
  exact ⟨_, t, writeResponse_recorder detect rw e t ht ⟨hlo, hhi⟩, ht, rfl,
    header_get_set _ _ _, rfl⟩

/-- C8 (as amended): `WriteResponse` completes and emits a response for every error
value that is not nil. On every response target, for a `*Error` value and for any other
non-nil error alike, it sets the Content-Type, calls `WriteHeader` with the status and
`Write` with the serialized value and a newline, and it panics only if one of these
calls does. On a recorder in any state it completes, with the header written, the
Content-Type set and the body extended, for every `*Error` value whose status has three
digits and for every other non-nil error. -/
theorem writeResponse_completes :
    (∀ (σ : Type) (W : ResponseWriter σ) (w : σ) (e : Error), ∃ t,
      e.MarshalJSON = .ok t ∧
      WriteResponse W w (.errorPtr (some e)) =
        (W.WriteHeader (W.setHeader w ((W.Header w).Set "Content-Type" "application/json"))
          e.Status).bind (fun w' => W.Write w' (t ++ "\n"))) ∧
    (∀ (σ : Type) (W : ResponseWriter σ) (w : σ) (g : GoString), ∃ t,
      (New g).MarshalJSON = .ok t ∧
      WriteResponse W w (.other g) =
        (W.WriteHeader (W.setHeader w ((W.Header w).Set "Content-Type" "application/json"))
          500).bind (fun w' => W.Write w' (t ++ "\n"))) ∧
    (∀ (detect : String → String) (rw : ResponseRecorder) (e : Error),
      100 ≤ e.Status → e.Status ≤ 999 →
      ∃ rw' t, WriteResponse (recorder detect) rw (.errorPtr (some e)) = .ok rw' ∧
        e.MarshalJSON = .ok t ∧ rw'.wroteHeader = true ∧
        rw'.HeaderMap.Get "Content-Type" = "application/json" ∧
        rw'.Body = rw.Body.map (fun b => b ++ (t ++ "\n"))) ∧
    (∀ (detect : String → String) (rw : ResponseRecorder) (g : GoString),
      ∃ rw' t, WriteResponse (recorder detect) rw (.other g) = .ok rw' ∧
        (New g).MarshalJSON = .ok t ∧ rw'.wroteHeader = true ∧
        rw'.HeaderMap.Get "Content-Type" = "application/json" ∧
        rw'.Body = rw.Body.map (fun b => b ++ (t ++ "\n"))) := by
  refine ⟨?_, ?_, ?_, ?_⟩
  · intro σ W w e
    obtain ⟨t, ht⟩ := marshalJSON_ok e
    exact ⟨t, ht, writeResponse_eq W w e t ht⟩
  · intro σ W w g
    obtain ⟨t, ht⟩ := marshalJSON_ok (New g)
    exact ⟨t, ht, writeResponse_eq W w (New g) t ht⟩
  · intro detect rw e hlo hhi
    exact writeResponse_recorder_emits detect rw e hlo hhi
  · intro detect rw g
    exact writeResponse_recorder_emits detect rw (New g) (by show (100 : Int) ≤ 500; decide)
      (by show (500 : Int) ≤ 999; decide)

/-- The completion of C8 at a concrete value: a validation error with status 400 written
to a fresh recorder. -/
theorem writeResponse_completes_witness :
    ∃ rw' t, WriteResponse (recorder detectPlain) NewRecorder
        (.errorPtr (some (NewValidation (utf8 "bad input")))) = .ok rw' ∧
      (NewValidation (utf8 "bad input")).MarshalJSON = .ok t ∧ rw'.wroteHeader = true ∧
      rw'.HeaderMap.Get "Content-Type" = "application/json" ∧
      rw'.Body = NewRecorder.Body.map (fun b => b ++ (t ++ "\n")) :=
  writeResponse_completes.2.2.1 detectPlain NewRecorder (NewValidation (utf8 "bad input"))
    (by decide) (by decide)

/-- C8 as stated fails: for the nil error the call `err.Error()` panics, for a nil
`*Error` pointer the call `e.Status()` panics, and for a `*Error` value with status 0
the recorder's `WriteHeader` panics. -/
theorem writeResponse_completes_counterexample :
    WriteResponse (recorder detectPlain) NewRecorder .nil = .error .nilDereference ∧
    WriteResponse (recorder detectPlain) NewRecorder (.errorPtr none) =
      .error .nilDereference ∧
    WriteResponse (recorder detectPlain) NewRecorder
      (.errorPtr (some ((New (utf8 "x")).SetStatus 0))) = .error (.invalidWriteHeaderCode 0) := by
  decide

/-! ## The paramName invariant -/

/-- No public operation clears a paramName that is set. -/
theorem apply_paramName_isSome (op : Op) (e : Error) (h : e.paramName.isSome = true) :
    (op.apply e).paramName.isSome = true := by
  cases op <;> first | exact h | rfl

/-- No sequence of public operations clears a paramName that is set. -/
theorem applyAll_paramName_isSome (ops : List Op) (e : Error)
    (h : e.paramName.isSome = true) : (applyAll ops e).paramName.isSome = true := by
  induction ops generalizing e with
  | nil => exact h
  | cons op ops ih => exact ih (op.apply e) (apply_paramName_isSome op e h)

/-- C11: paramName, once set, is never cleared: after `SetParamName` and any further
sequence of public operations (the setters, the accessors, `MarshalJSON`, `IsValidation`,
`WriteResponse`), `ParamName()` is not nil. -/
theorem paramName_never_cleared (e : Error) (n : GoString) (ops : List Op) :
    (applyAll ops (e.SetParamName n)).ParamName.isSome = true ∧
      (applyAll ops (e.SetParamName n)).ParamName ≠ none := by
  have h := applyAll_paramName_isSome ops (e.SetParamName n) rfl
  refine ⟨h, ?_⟩
  intro hn
  simp only [Error.ParamName] at hn
  simp [hn] at h

/-! ## Accessors -/

/-- C13: the accessors return the fields and change nothing: `Error()` returns the
message, `Status()` the status, `ParamName()` the paramName pointer, which is nil when no
name was set and refers to the name that was set otherwise; after each of these calls the
value is what it was. -/
theorem accessors_pure (e : Error) :
    e.Error = e.err ∧ e.Status = e.status ∧ e.ParamName = e.paramName ∧
    (∀ m : GoString, (New m).ParamName = none) ∧
    (∀ n : GoString, (e.SetParamName n).ParamName = some n) ∧
    Op.apply .Error e = e ∧ Op.apply .Status e = e ∧ Op.apply .ParamName e = e :=
  ⟨rfl, rfl, rfl, fun _ => rfl, fun _ => rfl, rfl, rfl, rfl⟩

/-! ## Constructors and classification -/

/-- The classification of a `*Error` value, computed. -/
theorem isValidation_errorPtr (e : Error) :
    IsValidation (.errorPtr (some e)) =
      .ok (e.status == StatusBadRequest || e.typ == utf8 "Validation") := rfl

/-- C15: for every message m, `NewValidation(m)` is a validation error and `New(m)` is
not; `SetParamName` does not change what `IsValidation` returns, and neither does the
message. -/
theorem isValidation_constructors :
    (∀ m : GoString, IsValidation (.errorPtr (some (NewValidation m))) = .ok true) ∧
    (∀ m : GoString, IsValidation (.errorPtr (some (New m))) = .ok false) ∧
    (∀ (e : Error) (n : GoString),
      IsValidation (.errorPtr (some (e.SetParamName n))) = IsValidation (.errorPtr (some e))) ∧
    (∀ (e : Error) (m : GoString),
      IsValidation (.errorPtr (some { e with err := m })) =
        IsValidation (.errorPtr (some e))) := by
  refine ⟨fun m => ?_, fun m => ?_, fun _ _ => rfl, fun _ _ => rfl⟩
  · rw [isValidation_errorPtr]
    rfl
  · rw [isValidation_errorPtr]
    have h1 : (StatusInternalServerError == StatusBadRequest) = false := by decide
    have h2 : (utf8 "InternalServerError" == utf8 "Validation") = false := by decide
    show Except.ok ((StatusInternalServerError == StatusBadRequest) ||
      (utf8 "InternalServerError" == utf8 "Validation")) = Except.ok false
    rw [h1, h2]
    rfl

/-! ## Setters of distinct fields -/

/-- C16: the setters of distinct fields commute: `SetType(t)`, `SetStatus(s)` and
`SetParamName(n)` applied in any of the six orders give the same value, with the message
of e, type t, status s and paramName n. -/
theorem setters_commute (e : Error) (t : GoString) (s : Int) (n : GoString) :
    ((e.SetType t).SetStatus s).SetParamName n =
      { err := e.err, typ := t, status := s, paramName := some n } ∧
    ((e.SetType t).SetParamName n).SetStatus s =
      { err := e.err, typ := t, status := s, paramName := some n } ∧
    ((e.SetStatus s).SetType t).SetParamName n =
      { err := e.err, typ := t, status := s, paramName := some n } ∧
    ((e.SetStatus s).SetParamName n).SetType t =
      { err := e.err, typ := t, status := s, paramName := some n } ∧
    ((e.SetParamName n).SetType t).SetStatus s =
      { err := e.err, typ := t, status := s, paramName := some n } ∧
    ((e.SetParamName n).SetStatus s).SetType t =
      { err := e.err, typ := t, status := s, paramName := some n } :=
  ⟨rfl, rfl, rfl, rfl, rfl, rfl⟩

/-! ## The effects of WriteResponse, in order -/

/-- The recording target after `WriteResponse` on a `*Error` value: the header change,
the header write and the body write, in this order. -/
theorem writeResponse_tracer (tr : Trace) (e : Error) (t : String)
    (ht : e.MarshalJSON = .ok t) :
    WriteResponse tracer tr (.errorPtr (some e)) = .ok
      { header := tr.header.Set "Content-Type" "application/json"
        events := tr.events ++
          [.header (tr.header.Set "Content-Type" "application/json"),
           .writeHeader e.Status, .write (t ++ "\n")] } := by
  rw [writeResponse_eq tracer tr e t ht]
  simp [tracer, Except.bind]

/-- C12: `WriteResponse` performs its effects in this order: it sets the Content-Type
header to "application/json", then writes the header with the status code of the value,
then writes the serialized value (and its final newline) to the body. On every response
target the header write acts on the state with the header set and the body write on the
state after the header write; the recording target shows the three effects in this
order, for a `*Error` value and for any other non-nil error. -/
theorem writeResponse_order :
    (∀ (σ : Type) (W : ResponseWriter σ) (w : σ) (e : Error), ∃ t,
      e.MarshalJSON = .ok t ∧
      WriteResponse W w (.errorPtr (some e)) =
        (W.WriteHeader (W.setHeader w ((W.Header w).Set "Content-Type" "application/json"))
          e.Status).bind (fun w' => W.Write w' (t ++ "\n"))) ∧
    (∀ (tr : Trace) (e : Error), ∃ t,
      e.MarshalJSON = .ok t ∧
      WriteResponse tracer tr (.errorPtr (some e)) = .ok
        { header := tr.header.Set "Content-Type" "application/json"
          events := tr.events ++
            [.header (tr.header.Set "Content-Type" "application/json"),
             .writeHeader e.Status, .write (t ++ "\n")] }) ∧
    (∀ (tr : Trace) (g : GoString), ∃ t,
      (New g).MarshalJSON = .ok t ∧
      WriteResponse tracer tr (.other g) = .ok
        { header := tr.header.Set "Content-Type" "application/json"
          events := tr.events ++
            [.header (tr.header.Set "Content-Type" "application/json"),
             .writeHeader 500, .write (t ++ "\n")] }) := by
  refine ⟨?_, ?_, ?_⟩
  · intro σ W w e
    obtain ⟨t, ht⟩ := marshalJSON_ok e
    exact ⟨t, ht, writeResponse_eq W w e t ht⟩
  · intro tr e
    obtain ⟨t, ht⟩ := marshalJSON_ok e
    exact ⟨t, ht, writeResponse_tracer tr e t ht⟩
  · intro tr g
    obtain ⟨t, ht⟩ := marshalJSON_ok (New g)
    exact ⟨t, ht, writeResponse_tracer tr (New g) t ht⟩

/-! ## The bytes of the body -/

/-- The body writes recorded after further effects. -/
theorem written_append (h : Header) (evs more : List Event) :
    Trace.written { header := h, events := evs ++ more } =
      Trace.written { header := h, events := evs } ++
        Trace.written { header := h, events := more } := by
  simp [Trace.written, List.filterMap_append]

/-- C14 (as amended): for every `*Error` value the bytes that `WriteResponse` writes to
the body are the output of `MarshalJSON` followed by one newline, in a single `Write`,
with nothing before them: so on the recording target, and so in the body of a fresh
recorder when the status has three digits. -/
theorem writeResponse_body_bytes (e : Error) :
    ∃ t, e.MarshalJSON = .ok t ∧
      (∀ tr : Trace, ∃ tr', WriteResponse tracer tr (.errorPtr (some e)) = .ok tr' ∧
        tr'.written = tr.written ++ [t ++ "\n"]) ∧
      (∀ detect : String → String, 100 ≤ e.Status → e.Status ≤ 999 →
        ∃ rr, WriteResponse (recorder detect) NewRecorder (.errorPtr (some e)) = .ok rr ∧
          rr.Result.Body = t ++ "\n") := by
  obtain ⟨t, ht⟩ := marshalJSON_ok e
  refine ⟨t, ht, ?_, ?_⟩
  · intro tr
    refine ⟨_, writeResponse_tracer tr e t ht, ?_⟩
    rw [written_append]
    simp [Trace.written]
  · intro detect hlo hhi
    refine ⟨_, writeResponse_recorder detect NewRecorder e t ht ⟨hlo, hhi⟩, ?_⟩
    simp [ResponseRecorder.Result, NewRecorder]

/-- The body of C14 at a concrete value: the default error with message "boom" on a fresh
recorder. -/
theorem writeResponse_body_bytes_witness :
    ∃ rr, WriteResponse (recorder detectPlain) NewRecorder (.errorPtr (some (New (utf8 "boom"))))
        = .ok rr ∧
      rr.Result.Body = "\x7b\"error\":\"InternalServerError\",\"message\":\"boom\"\x7d" ++ "\n" := by
  obtain ⟨t, ht, _, h⟩ := writeResponse_body_bytes (New (utf8 "boom"))
  have ht' : t = "\x7b\"error\":\"InternalServerError\",\"message\":\"boom\"\x7d" := by
    have : (New (utf8 "boom")).MarshalJSON =
        .ok "\x7b\"error\":\"InternalServerError\",\"message\":\"boom\"\x7d" := by decide
    rw [ht] at this
    injection this
  subst ht'
  exact h detectPlain (by decide) (by decide)

/-- C14 as stated fails: for the default error with message "boom" the body of the
response is the output of `MarshalJSON` with a newline after it, which `Encode` adds. -/
theorem writeResponse_body_bytes_counterexample :
    (New (utf8 "boom")).MarshalJSON =
      .ok "\x7b\"error\":\"InternalServerError\",\"message\":\"boom\"\x7d" ∧
    (WriteResponse (recorder detectPlain) NewRecorder (.errorPtr (some (New (utf8 "boom"))))).map
        (fun rr => rr.Result.Body) =
      .ok "\x7b\"error\":\"InternalServerError\",\"message\":\"boom\"\x7d\n" ∧
    (WriteResponse (recorder detectPlain) NewRecorder (.errorPtr (some (New (utf8 "boom"))))).map
        (fun rr => rr.Result.Body) ≠
      .ok "\x7b\"error\":\"InternalServerError\",\"message\":\"boom\"\x7d" := by
  decide

/-! ## The status code and the serialized value -/

/-- C17: the serialized JSON does not depend on the status code: two `*Error` values
with the same message, type and paramName have the same output of `MarshalJSON`, whatever
their status codes; of the effects of `WriteResponse` on them only the header write,
which carries the status code, differs. -/
theorem marshalJSON_status_independent (e1 e2 : Error) (hm : e1.err = e2.err)
    (hc : e1.typ = e2.typ) (hp : e1.paramName = e2.paramName) :
    e1.MarshalJSON = e2.MarshalJSON ∧
    (∀ tr : Trace, ∃ m b,
      WriteResponse tracer tr (.errorPtr (some e1)) = .ok
        { header := m, events := tr.events ++ [.header m, .writeHeader e1.Status, .write b] } ∧
      WriteResponse tracer tr (.errorPtr (some e2)) = .ok
        { header := m, events := tr.events ++ [.header m, .writeHeader e2.Status, .write b] }) := by
  have heq : e1.MarshalJSON = e2.MarshalJSON := by
    simp only [Error.MarshalJSON, hm, hc, hp]
  refine ⟨heq, fun tr => ?_⟩
  obtain ⟨t, ht⟩ := marshalJSON_ok e1
  exact ⟨_, _, writeResponse_tracer tr e1 t ht, writeResponse_tracer tr e2 t (heq ▸ ht)⟩

/-- The independence of C17 at concrete values: the default error with status 500 and
with status 404 serialize to the same bytes. -/
theorem marshalJSON_status_independent_witness :
    (New (utf8 "not found")).MarshalJSON = ((New (utf8 "not found")).SetStatus 404).MarshalJSON :=
  (marshalJSON_status_independent (New (utf8 "not found")) ((New (utf8 "not found")).SetStatus 404)
    rfl rfl rfl).1

end GoErrors
